import Mathlib

/-!
Shallow embedding of the goal/task orchestrator of `servers/goal_agent_server.py`
(class `CacheLayer` and class `GoalAgent`), together with theorems settling the
frozen claims about it.

Modelling conventions:
* Python dicts (`self.goals`, `self.tasks`, the Redis key space) are association
  lists in insertion order; `alist_set` replaces in place (as Python dict update
  does) and appends new keys at the end, `alist_erase` removes a key.
* Python exceptions (`ValueError`) become the `PyError` type; a method that can
  raise returns `AgentState × Except PyError α` — the state component is the
  state left behind even when the call raises, since Python mutations performed
  before a `raise` are not rolled back.
* `datetime.now().isoformat()` is an opaque `now : String` argument.
* The Redis client is a `CacheLayer` record of failure switches plus a modelled
  key/value store; a `fail_*` switch set means the corresponding client call
  raises, which the `cache_*` wrappers catch (returning the benign default),
  exactly as the `try`/`except` blocks in the source do.
* The thread pool of the batch operations serialises on the orchestrator's
  re-entrant lock; the batch operations are modelled by processing the items in
  submission order (the collection order of `as_completed` is nondeterministic,
  but no claim depends on it).
-/

namespace GoalAgent

/-- Association-list lookup, mirroring Python `dict.__getitem__` / `in`. -/
def alist_get {α : Type} : List (String × α) → String → Option α
  | [], _ => none
  | (k', v) :: rest, k => if k' = k then some v else alist_get rest k

/-- Association-list update, mirroring Python `dict.__setitem__`: replaces the
value in place when the key is present, appends at the end otherwise. -/
def alist_set {α : Type} : List (String × α) → String → α → List (String × α)
  | [], k, v => [(k, v)]
  | (k', v') :: rest, k, v =>
    if k' = k then (k, v) :: rest else (k', v') :: alist_set rest k v

/-- Association-list removal, mirroring Python `del d[k]`. -/
def alist_erase {α : Type} (m : List (String × α)) (k : String) : List (String × α) :=
  m.filter (fun p => p.1 ≠ k)

/-- Python whitespace as stripped by `str.strip()`. -/
def is_space (c : Char) : Bool :=
  (c = ' ') || (c = '\t') || (c = '\n') || (c = '\r') || (c = '\x0b') || (c = '\x0c')

/-- `str.strip()`: drop whitespace from both ends. -/
def strip_string (s : String) : String :=
  ⟨((s.data.dropWhile is_space).reverse.dropWhile is_space).reverse⟩

/-- Python truthiness of a string: non-empty. -/
def str_truthy (s : String) : Bool := s ≠ ""

/-- Python truthiness of an optional string (`None` and `""` are falsy). -/
def opt_str_truthy : Option String → Bool
  | none => false
  | some s => str_truthy s

/-- Decimal digit character. -/
def digit_char (d : Nat) : Char := Char.ofNat (48 + d % 10)

/-- Decimal digits of `n`, most significant first (fuel-structured so that it
reduces in the kernel). -/
def nat_digits : Nat → Nat → List Char
  | 0, _ => []
  | fuel + 1, n => if n < 10 then [digit_char n] else nat_digits fuel (n / 10) ++ [digit_char (n % 10)]

/-- Decimal rendering of a natural number. -/
def nat_repr (n : Nat) : String := ⟨nat_digits (n + 1) n⟩

/-- Python `"%04d" % n`: zero-pad to at least four digits. -/
def pad4 (n : Nat) : String :=
  ⟨List.replicate (4 - (nat_repr n).data.length) '0' ++ (nat_repr n).data⟩

/-- `f"GOAL-{n:04d}"`. -/
def goal_id_format (n : Nat) : String := "GOAL-" ++ pad4 n

/-- `f"TASK-{n:04d}"`. -/
def task_id_format (n : Nat) : String := "TASK-" ++ pad4 n

/-- The one exception type the orchestrator raises (`ValueError` in the source;
not-found and validation failures differ only in the message). -/
inductive PyError where
  | valueError : String → PyError
deriving DecidableEq, Repr

/-- `@dataclass Goal` of the source. -/
structure Goal where
  id : String
  description : String
  priority : String
  status : String
  repos : List String
  tasks : List String
  created_at : String
  updated_at : String
  metadata : List (String × String)
deriving DecidableEq, Repr

/-- `@dataclass Task` of the source (`result` payload modelled as an opaque
string; `assigned_tools` from the `tools` key of a subtask definition). -/
structure Task where
  id : String
  goal_id : String
  description : String
  type : String
  status : String
  priority : String
  dependencies : List String
  repo : Option String
  jira_ticket : Option String
  estimated_effort : Option String
  assigned_tools : List String
  created_at : String
  updated_at : String
  completed_at : Option String
  result : Option String
deriving DecidableEq, Repr

/-- The `CacheLayer` after `__init__`: `enabled`/`has_client` capture
`self.enabled` and `self.redis_client is not None`; each `fail_*` switch means
the corresponding Redis client call raises an exception (which the wrapper
catches). -/
structure CacheLayer where
  enabled : Bool
  has_client : Bool
  fail_set : Bool
  fail_get : Bool
  fail_delete : Bool
  fail_keys : Bool
  fail_ping : Bool
deriving DecidableEq, Repr

/-- A value stored in the modelled Redis key space: a serialized goal, task, or
full-state snapshot (`get_cache_state`). -/
inductive CacheValue where
  | goalV : Goal → CacheValue
  | taskV : Task → CacheValue
  | stateV : List (String × Goal) → List (String × Task) → Nat → Nat → String → CacheValue
deriving DecidableEq, Repr

/-- The in-memory state of a `GoalAgent` instance, plus the modelled Redis
contents (`redis`). -/
structure AgentState where
  goals : List (String × Goal)
  tasks : List (String × Task)
  goal_counter : Nat
  task_counter : Nat
  cache : CacheLayer
  redis : List (String × CacheValue)
deriving DecidableEq, Repr

/-- The cache-independent part of the state: goals, tasks and the two
counters. -/
def AgentState.core (s : AgentState) :
    List (String × Goal) × List (String × Task) × Nat × Nat :=
  (s.goals, s.tasks, s.goal_counter, s.task_counter)

/-- `CacheLayer.get_cache_key`. -/
def get_cache_key (key_type identifier : String) : String :=
  "goal_agent:" ++ key_type ++ ":" ++ identifier

/-- `CacheLayer.cache_set`: returns the (possibly updated) store and the Bool
result; any client failure is caught and yields `false` with the store
untouched. (`ttl` only selects `setex` vs `set`; both store the value.) -/
def cache_set (cl : CacheLayer) (store : List (String × CacheValue))
    (key : String) (value : CacheValue) (ttl : Nat) :
    List (String × CacheValue) × Bool :=
  if !cl.enabled || !cl.has_client then (store, false)
  else if cl.fail_set then (store, false)
  else (alist_set store key value, if ttl > 0 then true else true)

/-- `CacheLayer.cache_get`: any client failure is caught and yields `none`. -/
def cache_get (cl : CacheLayer) (store : List (String × CacheValue))
    (key : String) : Option CacheValue :=
  if !cl.enabled || !cl.has_client then none
  else if cl.fail_get then none
  else alist_get store key

/-- `CacheLayer.cache_delete`: any client failure is caught and yields `false`
with the store untouched. -/
def cache_delete (cl : CacheLayer) (store : List (String × CacheValue))
    (keys : List String) : List (String × CacheValue) × Bool :=
  if !cl.enabled || !cl.has_client then (store, false)
  else if cl.fail_delete then (store, false)
  else (keys.foldl (fun st k => alist_erase st k) store, true)

/-- Redis `KEYS` glob with a trailing `*` treated as a prefix wildcard. -/
def key_matches (pattern k : String) : Bool :=
  match pattern.data.getLast? with
  | some '*' => pattern.data.dropLast.isPrefixOf k.data
  | _ => pattern = k

/-- `CacheLayer.cache_keys`: any client failure is caught and yields `[]`. -/
def cache_keys (cl : CacheLayer) (store : List (String × CacheValue))
    (pattern : String) : List String :=
  if !cl.enabled || !cl.has_client then []
  else if cl.fail_keys then []
  else (store.map (·.1)).filter (key_matches pattern)

/-- `CacheLayer.is_available`: a failing `ping` is caught and yields `false`. -/
def is_available (cl : CacheLayer) : Bool :=
  cl.enabled && cl.has_client && !cl.fail_ping

/-- `GoalAgent._save_full_state`. -/
def save_full_state (s : AgentState) (now : String) : AgentState :=
  if !(is_available s.cache) then s
  else
    { s with
      redis := (cache_set s.cache s.redis (get_cache_key "state" "full")
        (CacheValue.stateV s.goals s.tasks s.goal_counter s.task_counter now) 2592000).1 }

/-- `GoalAgent._persist_to_cache`: writes the entity, then the full-state
snapshot; does nothing when the cache is unavailable and never fails. -/
def persist_to_cache (s : AgentState) (entity_type entity_id : String)
    (v : CacheValue) (now : String) : AgentState :=
  if !(is_available s.cache) then s
  else
    save_full_state
      { s with
        redis := (cache_set s.cache s.redis (get_cache_key entity_type entity_id) v 604800).1 }
      now

/-- `GoalAgent.create_goal`. -/
def create_goal (s : AgentState) (description priority : String)
    (repos : List String) (metadata : List (String × String)) (now : String) :
    AgentState × Except PyError Goal :=
  if strip_string description = "" then
    (s, .error (.valueError "Goal description cannot be empty"))
  else if !((priority = "high") || (priority = "medium") || (priority = "low")) then
    (s, .error (.valueError "Priority must be 'high', 'medium', or 'low'"))
  else
    let n := s.goal_counter + 1
    let gid := goal_id_format n
    let goal : Goal :=
      { id := gid
        description := strip_string description
        priority := priority
        status := "planned"
        repos := repos
        tasks := []
        created_at := now
        updated_at := now
        metadata := metadata }
    let s1 := { s with goal_counter := n, goals := alist_set s.goals gid goal }
    (persist_to_cache s1 "goal" gid (.goalV goal) now, .ok goal)

/-- One subtask definition dict passed to `break_down_goal` (the `.get` keys it
reads). -/
structure SubtaskDef where
  description : Option String
  type : Option String
  priority : Option String
  dependencies : List String
  repo : Option String
  jira_ticket : Option String
  estimated_effort : Option String
  tools : List String
deriving DecidableEq, Repr

/-- `subtask_def.get("priority", "medium")` followed by the membership check
that falls back to `"medium"`. -/
def normalize_priority (p : Option String) : String :=
  let pr := p.getD "medium"
  if (pr = "high") || (pr = "medium") || (pr = "low") then pr else "medium"

/-- The `Task(...)` constructor call inside `break_down_goal`: a fresh
`pending` task built from one subtask definition (priority normalized;
dependency ids taken verbatim — a dependency referencing no existing task is
only logged, never fatal). -/
def subtask_task (gid now tid : String) (d : SubtaskDef) : Task :=
  { id := tid
    goal_id := gid
    description := strip_string (d.description.getD "")
    type := d.type.getD "general"
    status := "pending"
    priority := normalize_priority d.priority
    dependencies := d.dependencies
    repo := d.repo
    jira_ticket := d.jira_ticket
    estimated_effort := d.estimated_effort
    assigned_tools := d.tools
    created_at := now
    updated_at := now
    completed_at := none
    result := none }

/-- The loop body of `break_down_goal`: validates, allocates, registers each
task, appends its id to the goal (written back into the map immediately, as the
in-place Python mutation does), and stops with the raised error as soon as a
subtask lacks a description — keeping everything created so far. -/
def break_down_goal_loop (gid : String) (now : String) :
    AgentState → Goal → List SubtaskDef → AgentState × Goal × Option PyError
  | s, g, [] => (s, g, none)
  | s, g, d :: rest =>
    if !(opt_str_truthy d.description) then
      (s, g, some (.valueError "Each subtask must have a description"))
    else
      let n := s.task_counter + 1
      let tid := task_id_format n
      let task := subtask_task gid now tid d
      let g1 := { g with tasks := g.tasks ++ [tid] }
      let s1 :=
        { s with
          task_counter := n
          tasks := alist_set s.tasks tid task
          goals := alist_set s.goals gid g1 }
      let s2 := persist_to_cache s1 "task" tid (.taskV task) now
      break_down_goal_loop gid now s2 g1 rest

/-- `GoalAgent.break_down_goal`. -/
def break_down_goal (s : AgentState) (goal_id : String)
    (subtasks : List SubtaskDef) (now : String) : AgentState × Except PyError Goal :=
  match alist_get s.goals goal_id with
  | none => (s, .error (.valueError ("Goal " ++ goal_id ++ " not found")))
  | some g =>
    if subtasks.isEmpty then
      (s, .error (.valueError "At least one subtask must be provided"))
    else
      match break_down_goal_loop goal_id now s g subtasks with
      | (s1, _, some e) => (s1, .error e)
      | (s1, g1, none) =>
        let g2 := { g1 with updated_at := now, status := "in_progress" }
        let s2 := { s1 with goals := alist_set s1.goals goal_id g2 }
        (persist_to_cache s2 "goal" goal_id (.goalV g2) now, .ok g2)

/-- The three field assignments `update_task_status` performs on the task:
status always, `result` only when truthy, `completed_at` only on transition to
`completed`. -/
def apply_status_update (task0 : Task) (status : String) (result : Option String)
    (now : String) : Task :=
  let task1 := { task0 with status := status }
  let task2 := if opt_str_truthy result then { task1 with result := result } else task1
  if status = "completed" then { task2 with completed_at := some now } else task2

/-- The derived goal-completion re-check of `update_task_status`: the goal
becomes `completed` (with a fresh `updated_at`) exactly when its list of
currently-existing owned tasks is non-empty and all of them are `completed`;
it is returned unchanged otherwise. -/
def check_goal_completion (tasks : List (String × Task)) (g : Goal) (now : String) : Goal :=
  let all_tasks := g.tasks.filterMap (fun tid => alist_get tasks tid)
  if !all_tasks.isEmpty && all_tasks.all (fun t => t.status = "completed") then
    { g with status := "completed", updated_at := now }
  else g

/-- `GoalAgent.update_task_status`. -/
def update_task_status (s : AgentState) (task_id status : String)
    (result : Option String) (now : String) : AgentState × Except PyError Task :=
  match alist_get s.tasks task_id with
  | none => (s, .error (.valueError ("Task " ++ task_id ++ " not found")))
  | some task0 =>
    if !((status = "pending") || (status = "in_progress") || (status = "completed")
        || (status = "failed") || (status = "blocked")) then
      (s, .error (.valueError ("Invalid status: " ++ status)))
    else
      let task3 := apply_status_update task0 status result now
      let s1 := { s with tasks := alist_set s.tasks task_id task3 }
      let s2 := persist_to_cache s1 "task" task_id (.taskV task3) now
      match alist_get s2.goals task3.goal_id with
      | none => (s2, .ok task3)
      | some g =>
        let g1 := check_goal_completion s2.tasks g now
        let s3 := { s2 with goals := alist_set s2.goals task3.goal_id g1 }
        (persist_to_cache s3 "goal" task3.goal_id (.goalV g1) now, .ok task3)

/-- The priority rank map `{"high": 0, "medium": 1, "low": 2}` with the
`.get(..., 1)` default used by `get_next_tasks`. -/
def priority_rank (p : String) : Nat :=
  if p = "high" then 0 else if p = "medium" then 1 else if p = "low" then 2 else 1

/-- The sort key order of `executable_tasks.sort(key=...)`. -/
def task_le (a b : Task) : Prop :=
  priority_rank a.priority ≤ priority_rank b.priority

instance : DecidableRel task_le := fun _ _ => Nat.decLe _ _

instance : IsTotal Task task_le := ⟨fun _ _ => Nat.le_total _ _⟩

instance : IsTrans Task task_le := ⟨fun _ _ _ h1 h2 => Nat.le_trans h1 h2⟩

/-- The candidate list of `get_next_tasks`: the goal's tasks when a goal id is
supplied (raising when it is unknown), all tasks otherwise. -/
def tasks_to_check (s : AgentState) (goal_id : Option String) :
    Except PyError (List Task) :=
  match goal_id with
  | some gid =>
    match alist_get s.goals gid with
    | none => .error (.valueError ("Goal " ++ gid ++ " not found"))
    | some g => .ok (g.tasks.filterMap (fun tid => alist_get s.tasks tid))
  | none => .ok (s.tasks.map (·.2))

/-- `self.tasks.get(dep_id, Task(..., status="", ...)).status`: the status of a
dependency, `""` when the id references no existing task. -/
def dep_status (s : AgentState) (dep_id : String) : String :=
  match alist_get s.tasks dep_id with
  | some t => t.status
  | none => ""

/-- The per-task eligibility test of `get_next_tasks`: pending, and every
dependency's (defaulted) status is `"completed"`. -/
def next_task_ok (s : AgentState) (t : Task) : Bool :=
  (t.status = "pending") && t.dependencies.all (fun d => dep_status s d = "completed")

/-- `GoalAgent.get_next_tasks`: filter then a stable sort by priority rank
(Python's `list.sort` is stable; any stable sort, here insertion sort, computes
the same list). -/
def get_next_tasks (s : AgentState) (goal_id : Option String) :
    Except PyError (List Task) :=
  match tasks_to_check s goal_id with
  | .error e => .error e
  | .ok tl => .ok (List.insertionSort task_le (tl.filter (next_task_ok s)))

/-- `GoalAgent.get_task`: the task together with the `_cache_status` annotation
(`enabled` flag and cache key). -/
def get_task (s : AgentState) (task_id : String) :
    Except PyError (Task × Bool × String) :=
  match alist_get s.tasks task_id with
  | none => .error (.valueError ("Task " ++ task_id ++ " not found"))
  | some t => .ok (t, is_available s.cache, get_cache_key "task" task_id)

/-- The result dict of `GoalAgent.get_goal`. -/
structure GoalDetails where
  goal : Goal
  task_details : List Task
  cache_enabled : Bool
  cache_key : String
deriving DecidableEq, Repr

/-- `GoalAgent.get_goal`. -/
def get_goal (s : AgentState) (goal_id : String) : Except PyError GoalDetails :=
  match alist_get s.goals goal_id with
  | none => .error (.valueError ("Goal " ++ goal_id ++ " not found"))
  | some g =>
    .ok { goal := g
          task_details := g.tasks.filterMap (fun tid => alist_get s.tasks tid)
          cache_enabled := is_available s.cache
          cache_key := get_cache_key "goal" goal_id }

/-- `GoalAgent.list_goals`: an invalid (or falsy) filter value is ignored. -/
def list_goals (s : AgentState) (status priority : Option String) : List Goal :=
  let gl := s.goals.map (·.2)
  let gl1 :=
    if opt_str_truthy status then
      let st := status.getD ""
      if (st = "planned") || (st = "in_progress") || (st = "completed") || (st = "cancelled") then
        gl.filter (fun g => g.status = st)
      else gl
    else gl
  if opt_str_truthy priority then
    let pr := priority.getD ""
    if (pr = "high") || (pr = "medium") || (pr = "low") then
      gl1.filter (fun g => g.priority = pr)
    else gl1
  else gl1

/-- One phase dict of an execution plan; `task_count` and
`parallel_execution_possible` are present only on normal phases, `warning` only
on the terminal circular-dependency phase. -/
structure Phase where
  phase : Nat
  tasks : List Task
  task_count : Option Nat
  parallel_execution_possible : Option Bool
  warning : Option String
deriving DecidableEq, Repr

/-- The plan dict of `generate_execution_plan`. -/
structure Plan where
  goal_id : String
  goal_description : String
  total_tasks : Nat
  total_phases : Nat
  execution_phases : List Phase
  message : Option String
deriving DecidableEq, Repr

/-- A phase produced by a successful sweep. -/
def normal_phase (n : Nat) (ts : List Task) : Phase :=
  { phase := n
    tasks := ts
    task_count := some ts.length
    parallel_execution_possible := some (decide (1 < ts.length))
    warning := none }

/-- The terminal phase produced when a sweep extracts nothing. -/
def cycle_phase (n : Nat) (ts : List Task) : Phase :=
  { phase := n
    tasks := ts
    task_count := none
    parallel_execution_possible := none
    warning := some "Circular dependencies detected" }

/-- `dep_id in completed_task_ids or dep_id not in [t.id for t in tasks]`. -/
def dep_satisfied (all_ids completed : List String) (d : String) : Bool :=
  completed.contains d || !(all_ids.contains d)

/-- The dependency check of one planner sweep for one task. -/
def task_ready (all_ids completed : List String) (t : Task) : Bool :=
  t.dependencies.all (dep_satisfied all_ids completed)

/-- One sweep of the planner loop (`for task in remaining_tasks[:]`): walks the
remaining tasks in order, extracting each ready task and adding its id to the
completed set immediately — so a task later in the sweep already sees ids
extracted earlier in the same sweep. Returns (extracted, completed', rest). -/
def plan_sweep (all_ids : List String) :
    List Task → List String → List Task × List String × List Task
  | [], completed => ([], completed, [])
  | t :: ts, completed =>
    if task_ready all_ids completed t then
      let r := plan_sweep all_ids ts (completed ++ [t.id])
      (t :: r.1, r.2.1, r.2.2)
    else
      let r := plan_sweep all_ids ts completed
      (r.1, r.2.1, t :: r.2.2)

/-- The `while remaining_tasks and iteration < max_iterations` loop, with the
remaining iteration budget as fuel. An empty sweep emits the terminal
circular-dependency phase and stops. -/
def plan_loop (all_ids : List String) :
    Nat → List Task → List String → List Phase → List Phase
  | 0, _, _, phases => phases
  | fuel + 1, remaining, completed, phases =>
    if remaining.isEmpty then phases
    else
      let sw := plan_sweep all_ids remaining completed
      if sw.1.isEmpty then phases ++ [cycle_phase (phases.length + 1) remaining]
      else plan_loop all_ids fuel sw.2.2 sw.2.1 (phases ++ [normal_phase (phases.length + 1) sw.1])

/-- `GoalAgent.generate_execution_plan`. -/
def generate_execution_plan (s : AgentState) (goal_id : String) :
    Except PyError Plan :=
  match alist_get s.goals goal_id with
  | none => .error (.valueError ("Goal " ++ goal_id ++ " not found"))
  | some g =>
    let tasks := g.tasks.filterMap (fun tid => alist_get s.tasks tid)
    if tasks.isEmpty then
      .ok { goal_id := goal_id
            goal_description := g.description
            total_tasks := 0
            total_phases := 0
            execution_phases := []
            message := some "No tasks defined for this goal" }
    else
      let phases := plan_loop (tasks.map (·.id)) (tasks.length + 1) tasks [] []
      .ok { goal_id := goal_id
            goal_description := g.description
            total_tasks := tasks.length
            total_phases := phases.length
            execution_phases := phases
            message := none }

/-- One item of the `updates` list of `batch_update_tasks` (the `.get` keys it
reads). -/
structure TaskUpdate where
  task_id : Option String
  status : Option String
  result : Option String
deriving DecidableEq, Repr

/-- The result dict of `batch_update_tasks`: `successful` holds
`(task_id, new status)` pairs, `failed` holds `(task_id, error message)` pairs
(the id may be `None` for items that lacked it). -/
structure BatchUpdateResult where
  successful : List (String × String)
  failed : List (Option String × String)
  total : Nat
deriving DecidableEq, Repr

/-- The message of a `PyError`, as `str(e)` renders it. -/
def error_message : PyError → String
  | .valueError m => m

/-- The submission pre-check of `batch_update_tasks`: both `task_id` and
`status` must be truthy. -/
def update_item_valid (u : TaskUpdate) : Bool :=
  opt_str_truthy u.task_id && opt_str_truthy u.status

/-- Processing of the submitted (valid) items: each re-enters the locked
`update_task_status`; an exception is recorded for that item alone and the
state it left behind is carried on unchanged to the next item. -/
def process_valid_updates (now : String) :
    AgentState → List TaskUpdate →
    AgentState × List (String × String) × List (Option String × String)
  | s, [] => (s, [], [])
  | s, u :: rest =>
    let tid := u.task_id.getD ""
    let r := update_task_status s tid (u.status.getD "") u.result now
    match r.2 with
    | .ok t =>
      let q := process_valid_updates now r.1 rest
      (q.1, (tid, t.status) :: q.2.1, q.2.2)
    | .error e =>
      let q := process_valid_updates now r.1 rest
      (q.1, q.2.1, (some tid, error_message e) :: q.2.2)

/-- `GoalAgent.batch_update_tasks`: items missing `task_id` or `status` are
recorded as failed without submission; the rest are dispatched to
`update_task_status` and their per-item outcomes collected. -/
def batch_update_tasks (s : AgentState) (updates : List TaskUpdate)
    (now : String) : AgentState × BatchUpdateResult :=
  let invalid := updates.filter (fun u => !(update_item_valid u))
  let valid := updates.filter update_item_valid
  let p := process_valid_updates now s valid
  (p.1,
    { successful := p.2.1
      failed := invalid.map (fun u => (u.task_id, "Missing task_id or status")) ++ p.2.2
      total := updates.length })

/-- The result dict of `batch_get_tasks`. -/
structure BatchGetResult where
  tasks : List (Task × Bool × String)
  not_found : List String
  total : Nat
deriving DecidableEq, Repr

/-- Collection loop of `batch_get_tasks`: a `ValueError` from `get_task` puts
the id in `not_found`; no exception aborts the batch. -/
def batch_get_go (s : AgentState) :
    List String → List (Task × Bool × String) × List String
  | [] => ([], [])
  | tid :: rest =>
    let q := batch_get_go s rest
    match get_task s tid with
    | .ok d => (d :: q.1, q.2)
    | .error _ => (q.1, tid :: q.2)

/-- `GoalAgent.batch_get_tasks`. -/
def batch_get_tasks (s : AgentState) (task_ids : List String) : BatchGetResult :=
  let q := batch_get_go s task_ids
  { tasks := q.1, not_found := q.2, total := task_ids.length }

/-- The result dict of `delete_task`. -/
structure DeleteTaskResult where
  deleted_task_id : String
  goal_id : String
  dependent_tasks : List String
  success : Bool
deriving DecidableEq, Repr

/-- `GoalAgent.delete_task`: deletes the task, removes its id from the owning
goal's list (the id stays inside other tasks' dependency lists), reports — but
does not block on — dependants, and evicts the cache entry. -/
def delete_task (s : AgentState) (task_id : String) (now : String) :
    AgentState × Except PyError DeleteTaskResult :=
  match alist_get s.tasks task_id with
  | none => (s, .error (.valueError ("Task " ++ task_id ++ " not found")))
  | some task =>
    let gid := task.goal_id
    let dependent :=
      ((s.tasks.map (·.2)).filter (fun t => t.dependencies.contains task_id)).map (·.id)
    let s1 := { s with tasks := alist_erase s.tasks task_id }
    let s2 :=
      match alist_get s1.goals gid with
      | some g =>
        if g.tasks.contains task_id then
          let g1 := { g with tasks := g.tasks.erase task_id, updated_at := now }
          persist_to_cache { s1 with goals := alist_set s1.goals gid g1 }
            "goal" gid (.goalV g1) now
        else s1
      | none => s1
    let s3 := { s2 with redis := (cache_delete s2.cache s2.redis [get_cache_key "task" task_id]).1 }
    (s3, .ok { deleted_task_id := task_id
               goal_id := gid
               dependent_tasks := dependent
               success := true })

/-- The result dict of `delete_goal`. -/
structure DeleteGoalResult where
  deleted_goal_id : String
  deleted_tasks : Nat
  task_ids : List String
  success : Bool
deriving DecidableEq, Repr

/-- The task-deletion loop of `delete_goal`. -/
def delete_goal_tasks : AgentState → List String → AgentState
  | s, [] => s
  | s, tid :: rest =>
    let s1 :=
      if (alist_get s.tasks tid).isSome then
        let s' := { s with tasks := alist_erase s.tasks tid }
        { s' with redis := (cache_delete s'.cache s'.redis [get_cache_key "task" tid]).1 }
      else s
    delete_goal_tasks s1 rest

/-- `GoalAgent.delete_goal`: cascades deletion of the goal's tasks, evicts the
cache entries, and refreshes the full-state snapshot. -/
def delete_goal (s : AgentState) (goal_id : String) (now : String) :
    AgentState × Except PyError DeleteGoalResult :=
  match alist_get s.goals goal_id with
  | none => (s, .error (.valueError ("Goal " ++ goal_id ++ " not found")))
  | some g =>
    let task_ids := g.tasks
    let s1 := delete_goal_tasks s task_ids
    let s2 := { s1 with goals := alist_erase s1.goals goal_id }
    let s3 := { s2 with redis := (cache_delete s2.cache s2.redis [get_cache_key "goal" goal_id]).1 }
    let s4 := save_full_state s3 now
    (s4, .ok { deleted_goal_id := goal_id
               deleted_tasks := task_ids.length
               task_ids := task_ids
               success := true })

/-- `GoalAgent.update_goal`: each supplied (truthy) field is validated and
applied in turn; a validation failure mid-way raises, leaving the fields
already assigned in place (Python mutates the stored goal object directly),
and `completed` is an accepted caller-supplied status value. -/
def update_goal (s : AgentState) (goal_id : String)
    (description priority status : Option String)
    (repos : Option (List String)) (metadata : Option (List (String × String)))
    (now : String) : AgentState × Except PyError Goal :=
  match alist_get s.goals goal_id with
  | none => (s, .error (.valueError ("Goal " ++ goal_id ++ " not found")))
  | some g =>
    if opt_str_truthy description && (strip_string (description.getD "") = "") then
      (s, .error (.valueError "Description cannot be empty"))
    else
      let g1 :=
        if opt_str_truthy description then
          { g with description := strip_string (description.getD "") }
        else g
      let pr := priority.getD ""
      if opt_str_truthy priority
          && !((pr = "high") || (pr = "medium") || (pr = "low")) then
        ({ s with goals := alist_set s.goals goal_id g1 },
          .error (.valueError "Priority must be 'high', 'medium', or 'low'"))
      else
        let g2 := if opt_str_truthy priority then { g1 with priority := pr } else g1
        let st := status.getD ""
        if opt_str_truthy status
            && !((st = "planned") || (st = "in_progress") || (st = "completed") || (st = "cancelled")) then
          ({ s with goals := alist_set s.goals goal_id g2 },
            .error (.valueError ("Invalid status: " ++ st)))
        else
          let g3 := if opt_str_truthy status then { g2 with status := st } else g2
          let g4 := match repos with | some r => { g3 with repos := r } | none => g3
          let g5 :=
            match metadata with
            | some m =>
              if m.isEmpty then g4
              else { g4 with metadata := m.foldl (fun acc (p : String × String) => alist_set acc p.1 p.2) g4.metadata }
            | none => g4
          let g6 := { g5 with updated_at := now }
          let s' := { s with goals := alist_set s.goals goal_id g6 }
          (persist_to_cache s' "goal" goal_id (.goalV g6) now, .ok g6)

/-- The parsed `counters.json` (either key may be absent). -/
structure CountersFile where
  goal : Option Nat
  task : Option Nat
deriving DecidableEq, Repr

/-- The three optional JSON files read by `_load_from_files`. -/
structure FilesOnDisk where
  goals_file : Option (List (String × Goal))
  tasks_file : Option (List (String × Task))
  counters_file : Option CountersFile
deriving DecidableEq, Repr

/-- `for k, v in data.items(): self.d[k] = v`. -/
def load_assoc {α : Type} (m : List (String × α)) (entries : List (String × α)) :
    List (String × α) :=
  entries.foldl (fun acc p => alist_set acc p.1 p.2) m

/-- `GoalAgent._load_from_files`: entities come from `goals.json`/`tasks.json`;
the counters come only from `counters.json` (`.get("goal", 0)` /
`.get("task", 0)`) — no scan of existing ids happens anywhere. -/
def load_from_files (s : AgentState) (files : FilesOnDisk) : AgentState × Bool :=
  let r1 :=
    match files.goals_file with
    | some entries => ({ s with goals := load_assoc s.goals entries }, true)
    | none => (s, false)
  let r2 :=
    match files.tasks_file with
    | some entries => ({ r1.1 with tasks := load_assoc r1.1.tasks entries }, true)
    | none => (r1.1, false)
  let s3 :=
    match files.counters_file with
    | some c => { r2.1 with goal_counter := c.goal.getD 0, task_counter := c.task.getD 0 }
    | none => r2.1
  (s3, r1.2 || r2.2)

/-- A fresh `GoalAgent` before any load: empty maps, zero counters. -/
def initial_state (cache : CacheLayer) : AgentState :=
  { goals := [], tasks := [], goal_counter := 0, task_counter := 0, cache := cache, redis := [] }

/-! ### Basic lemmas about the association-list and cache plumbing -/

theorem alist_get_set_self {α : Type} (m : List (String × α)) (k : String) (v : α) :
    alist_get (alist_set m k v) k = some v := by
  induction m with
  | nil => simp [alist_set, alist_get]
  | cons p rest ih =>
    by_cases h : p.1 = k
    · simp [alist_set, h, alist_get]
    · simp [alist_set, h, alist_get, ih]

theorem alist_get_set_ne {α : Type} (m : List (String × α)) (k k' : String) (v : α)
    (h : k' ≠ k) : alist_get (alist_set m k v) k' = alist_get m k' := by
  induction m with
  | nil =>
    simp only [alist_set, alist_get]
    rw [if_neg (fun hh => h hh.symm)]
  | cons p rest ih =>
    by_cases hp : p.1 = k
    · subst hp
      simp only [alist_set, if_pos rfl, alist_get]
      rw [if_neg (fun hh => h hh.symm), if_neg (fun hh => h hh.symm)]
    · simp only [alist_set, if_neg hp, alist_get]
      by_cases hq : p.1 = k'
      · rw [if_pos hq, if_pos hq]
      · rw [if_neg hq, if_neg hq, ih]

theorem alist_set_absent {α : Type} (m : List (String × α)) (k : String) (v : α)
    (h : alist_get m k = none) : alist_set m k v = m ++ [(k, v)] := by
  induction m with
  | nil => simp [alist_set]
  | cons p rest ih =>
    by_cases hp : p.1 = k
    · simp [alist_get, hp] at h
    · simp only [alist_get, if_neg hp] at h
      simp [alist_set, hp, ih h]

theorem alist_get_erase_self {α : Type} (m : List (String × α)) (k : String) :
    alist_get (alist_erase m k) k = none := by
  induction m with
  | nil => simp [alist_erase, alist_get]
  | cons p rest ih =>
    by_cases hp : p.1 = k
    · simpa [alist_erase, hp] using ih
    · simpa [alist_erase, alist_get, hp] using ih

theorem alist_get_erase_ne {α : Type} (m : List (String × α)) (k k' : String)
    (h : k' ≠ k) : alist_get (alist_erase m k) k' = alist_get m k' := by
  induction m with
  | nil => simp [alist_erase, alist_get]
  | cons p rest ih =>
    by_cases hp : p.1 = k
    · subst hp
      simp only [alist_erase, List.filter]
      rw [show (decide ¬p.1 = p.1) = false by simp]
      simp only [alist_get]
      rw [if_neg (fun hh => h hh.symm)]
      exact ih
    · simp only [alist_erase, List.filter] at *
      rw [show (decide ¬p.1 = k) = true by simp [hp]]
      simp only [alist_get]
      by_cases hq : p.1 = k'
      · rw [if_pos hq, if_pos hq]
      · rw [if_neg hq, if_neg hq]
        exact ih

@[simp] theorem save_full_state_goals (s : AgentState) (now : String) :
    (save_full_state s now).goals = s.goals := by
  unfold save_full_state; split <;> rfl

@[simp] theorem save_full_state_tasks (s : AgentState) (now : String) :
    (save_full_state s now).tasks = s.tasks := by
  unfold save_full_state; split <;> rfl

@[simp] theorem save_full_state_goal_counter (s : AgentState) (now : String) :
    (save_full_state s now).goal_counter = s.goal_counter := by
  unfold save_full_state; split <;> rfl

@[simp] theorem save_full_state_task_counter (s : AgentState) (now : String) :
    (save_full_state s now).task_counter = s.task_counter := by
  unfold save_full_state; split <;> rfl

@[simp] theorem save_full_state_cache (s : AgentState) (now : String) :
    (save_full_state s now).cache = s.cache := by
  unfold save_full_state; split <;> rfl

@[simp] theorem persist_to_cache_goals (s : AgentState) (a b : String)
    (v : CacheValue) (now : String) : (persist_to_cache s a b v now).goals = s.goals := by
  unfold persist_to_cache; split <;> simp

@[simp] theorem persist_to_cache_tasks (s : AgentState) (a b : String)
    (v : CacheValue) (now : String) : (persist_to_cache s a b v now).tasks = s.tasks := by
  unfold persist_to_cache; split <;> simp

@[simp] theorem persist_to_cache_goal_counter (s : AgentState) (a b : String)
    (v : CacheValue) (now : String) :
    (persist_to_cache s a b v now).goal_counter = s.goal_counter := by
  unfold persist_to_cache; split <;> simp

@[simp] theorem persist_to_cache_task_counter (s : AgentState) (a b : String)
    (v : CacheValue) (now : String) :
    (persist_to_cache s a b v now).task_counter = s.task_counter := by
  unfold persist_to_cache; split <;> simp

@[simp] theorem persist_to_cache_cache (s : AgentState) (a b : String)
    (v : CacheValue) (now : String) : (persist_to_cache s a b v now).cache = s.cache := by
  unfold persist_to_cache; split <;> simp

/-! ### Concrete fixtures used by counterexamples and witnesses -/

deriving instance DecidableEq for Except

/-- A cache layer with caching disabled (as when Redis is not configured). -/
def cache_off : CacheLayer :=
  { enabled := false, has_client := false, fail_set := false, fail_get := false,
    fail_delete := false, fail_keys := false, fail_ping := false }

/-- A cache layer whose every underlying Redis call raises. -/
def cache_failing : CacheLayer :=
  { enabled := true, has_client := true, fail_set := true, fail_get := true,
    fail_delete := true, fail_keys := true, fail_ping := true }

/-- A healthy cache layer. -/
def cache_on : CacheLayer :=
  { enabled := true, has_client := true, fail_set := false, fail_get := false,
    fail_delete := false, fail_keys := false, fail_ping := false }

/-- A sample task record. -/
def mk_task (id goal_id : String) (deps : List String) (status priority : String) : Task :=
  { id := id, goal_id := goal_id, description := "d", type := "general",
    status := status, priority := priority, dependencies := deps, repo := none,
    jira_ticket := none, estimated_effort := none, assigned_tools := [],
    created_at := "t0", updated_at := "t0", completed_at := none, result := none }

/-- A sample goal record. -/
def mk_goal (id : String) (tasks : List String) (status : String) : Goal :=
  { id := id, description := "g", priority := "medium", status := status,
    repos := [], tasks := tasks, created_at := "t0", updated_at := "t0", metadata := [] }

/-! ### C3 — startup id-counter recovery -/

/-- Persisted files whose highest (only) goal id is `GOAL-0007`, with no
`counters.json`. -/
def files_goal7 : FilesOnDisk :=
  { goals_file := some [("GOAL-0007", mk_goal "GOAL-0007" [] "planned")]
    tasks_file := none
    counters_file := none }

/-- The agent state after restarting against `files_goal7`. -/
def state_goal7 : AgentState := (load_from_files (initial_state cache_off) files_goal7).1

/-- C3 counterexample: restarting against persisted state whose highest goal id
is `GOAL-0007` (and no counters file) does NOT make the next `create_goal`
allocate `GOAL-0008`: no scan of id suffixes happens, the counter stays 0, and
the next goal is allocated the (colliding) id `GOAL-0001`. -/
theorem c3_counterexample :
    state_goal7.goals.map (fun p => p.1) = ["GOAL-0007"] ∧
    state_goal7.goal_counter = 0 ∧
    ((create_goal state_goal7 "New goal" "medium" [] [] "t1").2.toOption.map Goal.id
      = some "GOAL-0001") ∧
    "GOAL-0001" ≠ "GOAL-0008" := by
  refine ⟨by decide, by decide, by decide, by decide⟩

/-- The id allocated by a successful `create_goal` is always
`GOAL-{goal_counter+1:04d}`. -/
theorem create_goal_ok_id (s : AgentState) (d p : String) (r : List String)
    (md : List (String × String)) (now : String) (g : Goal)
    (h : (create_goal s d p r md now).2 = .ok g) :
    g.id = goal_id_format (s.goal_counter + 1) := by
  unfold create_goal at h
  split at h
  · exact absurd h (by simp)
  · split at h
    · exact absurd h (by simp)
    · simp only [Except.ok.injEq] at h
      rw [← h]

/-- C3 (amended): the per-entity-type counters are recovered at startup from
the persisted counters file alone (keys `goal`/`task`, defaulting to 0 when the
file or the key is absent) — never by scanning entity ids — and `create_goal`
allocates `GOAL-{counter+1:04d}`; hence a restart allocates `GOAL-0008` exactly
when the persisted goal counter is 7 (as a consistent store whose highest goal
id is `GOAL-0007` records), while a store lacking the counters file restarts
the ids from `GOAL-0001` regardless of the persisted goals. -/
theorem c3_counter_recovery :
    (∀ (c : CacheLayer) (files : FilesOnDisk),
      (load_from_files (initial_state c) files).1.goal_counter
          = (match files.counters_file with
             | some cf => cf.goal.getD 0
             | none => 0) ∧
      (load_from_files (initial_state c) files).1.task_counter
          = (match files.counters_file with
             | some cf => cf.task.getD 0
             | none => 0)) ∧
    (∀ (s : AgentState) (d p : String) (r : List String)
        (md : List (String × String)) (now : String) (g : Goal),
      (create_goal s d p r md now).2 = .ok g →
      g.id = goal_id_format (s.goal_counter + 1)) ∧
    (∀ (s : AgentState) (files : FilesOnDisk) (cf : CountersFile) (d p : String)
        (r : List String) (md : List (String × String)) (now : String) (g : Goal),
      files.counters_file = some cf → cf.goal = some 7 →
      (create_goal (load_from_files s files).1 d p r md now).2 = .ok g →
      g.id = "GOAL-0008") := by
  refine ⟨?_, ?_, ?_⟩
  · intro c files
    cases files with
    | mk gf tf cf =>
      cases gf <;> cases tf <;> cases cf <;>
        simp [load_from_files, initial_state]
  · exact create_goal_ok_id
  · intro s files cf d p r md now g hcf hgoal h
    have hctr : (load_from_files s files).1.goal_counter = 7 := by
      unfold load_from_files
      cases files with
      | mk gf tf c =>
        simp only at hcf
        subst hcf
        cases gf <;> cases tf <;> simp [hgoal]
    rw [create_goal_ok_id _ _ _ _ _ _ _ h, hctr]
    decide

/-- Persisted files recording both `GOAL-0007` and the counters `goal = 7`. -/
def files_ctr7 : FilesOnDisk :=
  { goals_file := some [("GOAL-0007", mk_goal "GOAL-0007" [] "planned")]
    tasks_file := none
    counters_file := some { goal := some 7, task := some 0 } }

/-- The agent state after restarting against `files_ctr7`. -/
def state_ctr7 : AgentState := (load_from_files (initial_state cache_off) files_ctr7).1

/-- The goal `create_goal` builds from `state_ctr7`. -/
def goal8 : Goal :=
  { id := "GOAL-0008", description := "Ship v2", priority := "high",
    status := "planned", repos := [], tasks := [], created_at := "t1",
    updated_at := "t1", metadata := [] }

/-- C3 amended-claim witness: with a persisted counters file recording
`goal = 7`, the restarted agent's next `create_goal` allocates `GOAL-0008`. -/
theorem c3_counter_recovery_witness :
    (create_goal state_ctr7 "Ship v2" "high" [] [] "t1").2 = Except.ok goal8 ∧
    goal8.id = "GOAL-0008" :=
  ⟨by decide,
   c3_counter_recovery.2.2 (initial_state cache_off) files_ctr7
     { goal := some 7, task := some 0 } "Ship v2" "high" [] [] "t1" goal8
     rfl rfl (by decide)⟩

/-! ### C2 — automatic goal completion -/

/-- `update_task_status` never reassigns the owning goal id. -/
theorem apply_status_update_goal_id (t : Task) (st : String) (r : Option String)
    (n : String) : (apply_status_update t st r n).goal_id = t.goal_id := by
  unfold apply_status_update
  split <;> split <;> rfl

/-- Unpacking a successful `update_task_status` whose task belongs to an
existing goal: the returned task is the updated one, the stored goal is the
result of the completion re-check against the updated task map, and the task
map gained exactly the updated task. -/
theorem update_task_status_ok_goal (s : AgentState) (task_id st : String)
    (res : Option String) (now : String) (s' : AgentState) (t : Task) (g : Goal)
    (h : update_task_status s task_id st res now = (s', .ok t))
    (hg : alist_get s.goals t.goal_id = some g) :
    t.goal_id = (alist_get s.tasks task_id |>.map Task.goal_id |>.getD "") ∧
    s'.tasks = alist_set s.tasks task_id t ∧
    alist_get s'.goals t.goal_id = some (check_goal_completion s'.tasks g now) := by
  unfold update_task_status at h
  cases hm : alist_get s.tasks task_id with
  | none => rw [hm] at h; simp at h
  | some task0 =>
    rw [hm] at h
    dsimp only at h
    split at h
    · simp at h
    · simp only [persist_to_cache_goals, persist_to_cache_tasks] at h
      cases hgm : alist_get s.goals (apply_status_update task0 st res now).goal_id with
      | none =>
        rw [hgm] at h
        dsimp only at h
        simp only [Prod.mk.injEq, Except.ok.injEq] at h
        obtain ⟨hs', ht⟩ := h
        subst ht
        rw [hg] at hgm
        cases hgm
      | some g' =>
        rw [hgm] at h
        dsimp only at h
        simp only [Prod.mk.injEq, Except.ok.injEq] at h
        obtain ⟨hs', ht⟩ := h
        subst ht
        have hgg : g' = g := by
          rw [hg] at hgm
          exact (Option.some.inj hgm).symm
        subst hgg
        have htsk : s'.tasks = alist_set s.tasks task_id (apply_status_update task0 st res now) := by
          rw [← hs']
          simp
        refine ⟨by rw [apply_status_update_goal_id]; rfl, htsk, ?_⟩
        rw [htsk, ← hs']
        simp only [persist_to_cache_goals, persist_to_cache_tasks]
        exact alist_get_set_self _ _ _

/-- `update_goal` accepts `completed` as a caller-supplied status: the goal is
stored and returned with `status = "completed"` regardless of its tasks. -/
theorem update_goal_accepts_completed (s : AgentState) (gid : String) (g : Goal)
    (now : String) (hg : alist_get s.goals gid = some g) :
    (update_goal s gid none none (some "completed") none none now).2
      = .ok { g with status := "completed", updated_at := now } ∧
    alist_get (update_goal s gid none none (some "completed") none none now).1.goals gid
      = some { g with status := "completed", updated_at := now } := by
  unfold update_goal
  rw [hg]
  dsimp only [Option.getD]
  rw [if_neg (by decide), if_neg (by decide), if_neg (by decide), if_pos (by decide),
    if_neg (by decide), if_neg (by decide)]
  refine ⟨rfl, ?_⟩
  simp only [persist_to_cache_goals]
  exact alist_get_set_self _ _ _

/-- A goal with two pending tasks, the second depending on the first. -/
def state_g1 : AgentState :=
  { goals := [("GOAL-0001", mk_goal "GOAL-0001" ["TASK-0001", "TASK-0002"] "in_progress")]
    tasks := [("TASK-0001", mk_task "TASK-0001" "GOAL-0001" [] "pending" "medium"),
              ("TASK-0002", mk_task "TASK-0002" "GOAL-0001" ["TASK-0001"] "pending" "high")]
    goal_counter := 1
    task_counter := 2
    cache := cache_off
    redis := [] }

/-- C2 counterexample: `completed` IS a caller-suppliable goal status —
`update_goal(goal_id, status="completed")` flips the goal to `completed` while
one of its owned tasks is still `pending`, so the transition is neither derived
solely from task completion nor barred from callers. -/
theorem c2_counterexample :
    ((update_goal state_g1 "GOAL-0001" none none (some "completed") none none "t1").2.toOption.map
        Goal.status = some "completed") ∧
    ((alist_get (update_goal state_g1 "GOAL-0001" none none (some "completed") none none "t1").1.goals
        "GOAL-0001").map Goal.status = some "completed") ∧
    ((alist_get state_g1.tasks "TASK-0001").map Task.status = some "pending") ∧
    ((alist_get (update_goal state_g1 "GOAL-0001" none none (some "completed") none none "t1").1.tasks
        "TASK-0001").map Task.status = some "pending") := by
  refine ⟨by decide, by decide, by decide, by decide⟩

/-- C2 (amended): the completion condition is re-evaluated after every
successful `update_task_status` call on a task of an existing goal — the stored
goal becomes `completed` exactly when its (non-empty) list of existing owned
tasks is all `completed`, and is left unchanged otherwise — but `completed` is
ALSO an accepted caller-supplied status via `update_goal`, so the transition is
not exclusively automatic. -/
theorem c2_goal_completion :
    (∀ (s : AgentState) (task_id st : String) (res : Option String) (now : String)
        (s' : AgentState) (t : Task) (g : Goal),
      update_task_status s task_id st res now = (s', .ok t) →
      alist_get s.goals t.goal_id = some g →
      alist_get s'.goals t.goal_id =
        some
          (if (let owned := g.tasks.filterMap (fun tid => alist_get s'.tasks tid)
               !owned.isEmpty && owned.all (fun u => u.status = "completed")) then
            { g with status := "completed", updated_at := now }
          else g)) ∧
    (∀ (s : AgentState) (gid : String) (g : Goal) (now : String),
      alist_get s.goals gid = some g →
      (update_goal s gid none none (some "completed") none none now).2
        = .ok { g with status := "completed", updated_at := now }) := by
  constructor
  · intro s task_id st res now s' t g h hg
    exact (update_task_status_ok_goal s task_id st res now s' t g h hg).2.2
  · intro s gid g now hg
    exact (update_goal_accepts_completed s gid g now hg).1

/-- C2 amended-claim witness: completing the only remaining task of
`GOAL-0001` flips the stored goal to `completed` automatically, and
`update_goal` accepts a caller-supplied `completed`. -/
theorem c2_goal_completion_witness :
    (alist_get
        (update_task_status
          { state_g1 with
            tasks := [("TASK-0001", mk_task "TASK-0001" "GOAL-0001" [] "completed" "medium"),
                      ("TASK-0002", mk_task "TASK-0002" "GOAL-0001" ["TASK-0001"] "pending" "high")] }
          "TASK-0002" "completed" none "t2").1.goals "GOAL-0001").map Goal.status
      = some "completed" ∧
    (update_goal state_g1 "GOAL-0001" none none (some "completed") none none "t3").2.toOption.map
        Goal.status = some "completed" := by
  constructor
  · have h := c2_goal_completion.1
      { state_g1 with
        tasks := [("TASK-0001", mk_task "TASK-0001" "GOAL-0001" [] "completed" "medium"),
                  ("TASK-0002", mk_task "TASK-0002" "GOAL-0001" ["TASK-0001"] "pending" "high")] }
      "TASK-0002" "completed" none "t2"
      (update_task_status
        { state_g1 with
          tasks := [("TASK-0001", mk_task "TASK-0001" "GOAL-0001" [] "completed" "medium"),
                    ("TASK-0002", mk_task "TASK-0002" "GOAL-0001" ["TASK-0001"] "pending" "high")] }
        "TASK-0002" "completed" none "t2").1
      { mk_task "TASK-0002" "GOAL-0001" ["TASK-0001"] "completed" "high" with completed_at := some "t2" }
      (mk_goal "GOAL-0001" ["TASK-0001", "TASK-0002"] "in_progress")
      (by decide) (by decide)
    rw [show ({ mk_task "TASK-0002" "GOAL-0001" ["TASK-0001"] "completed" "high" with
        completed_at := some "t2" } : Task).goal_id = "GOAL-0001" from rfl] at h
    rw [h]
    decide
  · have h := c2_goal_completion.2 state_g1 "GOAL-0001"
      (mk_goal "GOAL-0001" ["TASK-0001", "TASK-0002"] "in_progress") "t3" (by decide)
    rw [h]
    decide

/-! ### C5 / C9 — break_down_goal -/

/-- The well-formed loop of `break_down_goal` raises nothing, advances the task
counter once per subtask, never touches the goal counter, and appends exactly
the allocated ids to the goal's task list (all other goal fields untouched). -/
theorem bdg_loop_spec (gid now : String) (subs : List SubtaskDef) :
    ∀ (s : AgentState) (g : Goal),
      (∀ d ∈ subs, opt_str_truthy d.description = true) →
      (break_down_goal_loop gid now s g subs).2.2 = none ∧
      (break_down_goal_loop gid now s g subs).1.task_counter = s.task_counter + subs.length ∧
      (break_down_goal_loop gid now s g subs).1.goal_counter = s.goal_counter ∧
      (break_down_goal_loop gid now s g subs).2.1 =
        { g with tasks := g.tasks ++
            (List.range subs.length).map (fun i => task_id_format (s.task_counter + i + 1)) } := by
  induction subs with
  | nil =>
    intro s g _
    refine ⟨rfl, rfl, rfl, ?_⟩
    cases g
    simp [break_down_goal_loop]
  | cons d rest ih =>
    intro s g hwf
    have hd := hwf d (List.mem_cons_self d rest)
    unfold break_down_goal_loop
    rw [if_neg (by simp [hd])]
    dsimp only
    obtain ⟨h1, h2, h3, h4⟩ :=
      ih _ _ (fun d' hd' => hwf d' (List.mem_cons_of_mem d hd'))
    refine ⟨h1, ?_, ?_, ?_⟩
    · rw [h2]
      simp only [persist_to_cache_task_counter, List.length_cons]
      omega
    · rw [h3]
      simp
    · rw [h4]
      simp only [persist_to_cache_task_counter]
      cases g
      simp only [List.length_cons, List.range_succ_eq_map, List.map_cons, List.map_map]
      simp [List.append_assoc, Function.comp, Nat.add_right_comm]
      intro a _
      congr 1
      omega

/-- After a non-empty well-formed loop, the goals map holds the accumulated
goal under its id (each iteration writes the appended goal back, as the
in-place Python mutation does). -/
theorem bdg_loop_get_goal (gid now : String) (subs : List SubtaskDef) :
    ∀ (s : AgentState) (g : Goal),
      (∀ d ∈ subs, opt_str_truthy d.description = true) → subs ≠ [] →
      alist_get (break_down_goal_loop gid now s g subs).1.goals gid
        = some (break_down_goal_loop gid now s g subs).2.1 := by
  induction subs with
  | nil => intro s g _ hne; exact absurd rfl hne
  | cons d rest ih =>
    intro s g hwf _
    have hd := hwf d (List.mem_cons_self d rest)
    unfold break_down_goal_loop
    rw [if_neg (by simp [hd])]
    dsimp only
    by_cases hrest : rest = []
    · subst hrest
      simp only [break_down_goal_loop, persist_to_cache_goals]
      exact alist_get_set_self _ _ _
    · exact ih _ _ (fun d' hd' => hwf d' (List.mem_cons_of_mem d hd')) hrest

/-- A subtask without a (truthy) description raises after the well-formed
prefix has been fully processed: the loop on `pre ++ bad :: rest` returns the
state and goal reached after `pre` alone, plus the validation error. -/
theorem bdg_loop_err (gid now : String) (bad : SubtaskDef) (rest : List SubtaskDef)
    (hbad : opt_str_truthy bad.description = false) (pre : List SubtaskDef) :
    ∀ (s : AgentState) (g : Goal),
      (∀ d ∈ pre, opt_str_truthy d.description = true) →
      break_down_goal_loop gid now s g (pre ++ bad :: rest)
        = ((break_down_goal_loop gid now s g pre).1,
           (break_down_goal_loop gid now s g pre).2.1,
           some (.valueError "Each subtask must have a description")) := by
  induction pre with
  | nil =>
    intro s g _
    simp only [List.nil_append]
    unfold break_down_goal_loop
    rw [if_pos (by simp [hbad])]
  | cons d pre' ih =>
    intro s g hwf
    have hd := hwf d (List.mem_cons_self d pre')
    simp only [List.cons_append]
    conv_lhs => unfold break_down_goal_loop
    conv_rhs => unfold break_down_goal_loop
    rw [if_neg (by simp [hd]), if_neg (by simp [hd])]
    dsimp only
    exact ih _ _ (fun d' hd' => hwf d' (List.mem_cons_of_mem d hd'))

/-- Task-map effects of the well-formed loop, assuming the allocated ids are
fresh and pairwise distinct: exactly one entry per subtask is added, untouched
keys keep their bindings, and the id allocated for the `i`-th subtask maps to
the task built from it. -/
theorem bdg_loop_tasks_spec (gid now : String) (subs : List SubtaskDef) :
    ∀ (s : AgentState) (g : Goal),
      (∀ d ∈ subs, opt_str_truthy d.description = true) →
      (∀ i, i < subs.length → alist_get s.tasks (task_id_format (s.task_counter + i + 1)) = none) →
      (∀ i, i < subs.length → ∀ j, j < subs.length →
          task_id_format (s.task_counter + i + 1) = task_id_format (s.task_counter + j + 1) → i = j) →
      (break_down_goal_loop gid now s g subs).1.tasks.length = s.tasks.length + subs.length ∧
      (∀ k, (∀ i, i < subs.length → k ≠ task_id_format (s.task_counter + i + 1)) →
          alist_get (break_down_goal_loop gid now s g subs).1.tasks k = alist_get s.tasks k) ∧
      (∀ i (hi : i < subs.length),
          alist_get (break_down_goal_loop gid now s g subs).1.tasks
              (task_id_format (s.task_counter + i + 1))
            = some (subtask_task gid now (task_id_format (s.task_counter + i + 1))
                (subs.get ⟨i, hi⟩))) := by
  induction subs with
  | nil =>
    intro s g _ _ _
    refine ⟨by simp [break_down_goal_loop], fun k _ => rfl, fun i hi => absurd hi (by simp)⟩
  | cons d rest ih =>
    intro s g hwf hfresh hdist
    have hd := hwf d (List.mem_cons_self d rest)
    have habs : alist_get s.tasks (task_id_format (s.task_counter + 1)) = none := by
      have := hfresh 0 (by simp)
      simpa using this
    unfold break_down_goal_loop
    rw [if_neg (by simp [hd])]
    dsimp only
    have hwf' : ∀ d' ∈ rest, opt_str_truthy d'.description = true :=
      fun d' hd' => hwf d' (List.mem_cons_of_mem d hd')
    -- the recursive state: counter bumped, one fresh entry appended
    have harg : ∀ i : Nat, s.task_counter + 1 + i + 1 = s.task_counter + (i + 1) + 1 := by
      intro i; omega
    have hfresh' : ∀ i, i < rest.length →
        alist_get (alist_set s.tasks (task_id_format (s.task_counter + 1))
            (subtask_task gid now (task_id_format (s.task_counter + 1)) d))
          (task_id_format (s.task_counter + 1 + i + 1)) = none := by
      intro i hi
      rw [harg i]
      rw [alist_get_set_ne]
      · exact hfresh (i + 1) (by simpa using Nat.succ_lt_succ hi)
      · intro hk
        have h0 : task_id_format (s.task_counter + 0 + 1) = task_id_format (s.task_counter + 1) := rfl
        have := hdist (i + 1) (by simpa using Nat.succ_lt_succ hi) 0 (by simp) (hk.trans h0.symm)
        omega
    have hdist' : ∀ i, i < rest.length → ∀ j, j < rest.length →
        task_id_format (s.task_counter + 1 + i + 1) = task_id_format (s.task_counter + 1 + j + 1) →
        i = j := by
      intro i hi j hj hk
      rw [harg i, harg j] at hk
      have := hdist (i + 1) (by simpa using Nat.succ_lt_succ hi) (j + 1)
        (by simpa using Nat.succ_lt_succ hj) hk
      omega
    obtain ⟨ha, hb, hc⟩ := by
      refine ih (persist_to_cache
          { s with
            task_counter := s.task_counter + 1
            tasks := alist_set s.tasks (task_id_format (s.task_counter + 1))
              (subtask_task gid now (task_id_format (s.task_counter + 1)) d)
            goals := alist_set s.goals gid { g with tasks := g.tasks ++ [task_id_format (s.task_counter + 1)] } }
          "task" (task_id_format (s.task_counter + 1))
          (.taskV (subtask_task gid now (task_id_format (s.task_counter + 1)) d)) now)
        { g with tasks := g.tasks ++ [task_id_format (s.task_counter + 1)] } hwf' ?_ ?_
      · simpa using hfresh'
      · simpa using hdist'
    refine ⟨?_, ?_, ?_⟩
    · rw [ha]
      simp only [persist_to_cache_tasks, List.length_cons]
      rw [alist_set_absent _ _ _ habs]
      simp
      omega
    · intro k hk
      have hk0 : k ≠ task_id_format (s.task_counter + 1) := by
        have := hk 0 (by simp)
        simpa using this
      have := hb k (by
        intro i hi
        simp only [persist_to_cache_task_counter]
        rw [harg i]
        exact hk (i + 1) (by simpa using Nat.succ_lt_succ hi))
      rw [this]
      simp only [persist_to_cache_tasks]
      exact alist_get_set_ne _ _ _ _ hk0
    · intro i hi
      match i with
      | 0 =>
        have hnotin : ∀ j, j < rest.length →
            task_id_format (s.task_counter + 0 + 1)
              ≠ task_id_format
                ((persist_to_cache
                  { s with
                    task_counter := s.task_counter + 1
                    tasks := alist_set s.tasks (task_id_format (s.task_counter + 1))
                      (subtask_task gid now (task_id_format (s.task_counter + 1)) d)
                    goals := alist_set s.goals gid { g with tasks := g.tasks ++ [task_id_format (s.task_counter + 1)] } }
                  "task" (task_id_format (s.task_counter + 1))
                  (.taskV (subtask_task gid now (task_id_format (s.task_counter + 1)) d)) now).task_counter + j + 1) := by
          intro j hj
          simp only [persist_to_cache_task_counter]
          intro hk
          rw [harg j] at hk
          have := hdist 0 (by simp) (j + 1) (by simpa using Nat.succ_lt_succ hj) hk
          omega
        have := hb (task_id_format (s.task_counter + 0 + 1)) hnotin
        rw [this]
        simp only [persist_to_cache_tasks]
        have h0 : task_id_format (s.task_counter + 0 + 1) = task_id_format (s.task_counter + 1) := rfl
        rw [h0, alist_get_set_self]
        rfl
      | j + 1 =>
        have hj : j < rest.length := by simpa using Nat.lt_of_succ_lt_succ hi
        have := hc j hj
        simp only [persist_to_cache_task_counter] at this
        rw [← harg j]
        exact this

/-- C5: `break_down_goal` raises not-found on an unknown goal id and a
validation error on an empty subtask list, both leaving the state untouched;
given a goal and well-formed subtasks (every one with a truthy description —
dependency ids are never checked fatally) it allocates one fresh task per
subtask (`pending`, priority normalized via `normalize_priority`, fields as
built by `subtask_task`), appends exactly the allocated ids to the goal's task
list (so a fresh goal ends with `N` task ids), sets the goal `in_progress`,
stores it, and returns it. Freshness/distinctness of the allocated ids (always
true of the `TASK-%04d` format in a consistent state) are explicit hypotheses. -/
theorem c5_break_down_goal :
    (∀ (s : AgentState) (gid : String) (subs : List SubtaskDef) (now : String),
      alist_get s.goals gid = none →
      break_down_goal s gid subs now
        = (s, .error (.valueError ("Goal " ++ gid ++ " not found")))) ∧
    (∀ (s : AgentState) (gid : String) (g : Goal) (now : String),
      alist_get s.goals gid = some g →
      break_down_goal s gid [] now
        = (s, .error (.valueError "At least one subtask must be provided"))) ∧
    (∀ (s : AgentState) (gid : String) (g : Goal) (subs : List SubtaskDef) (now : String),
      alist_get s.goals gid = some g → subs ≠ [] →
      (∀ d ∈ subs, opt_str_truthy d.description = true) →
      (∀ i, i < subs.length → alist_get s.tasks (task_id_format (s.task_counter + i + 1)) = none) →
      (∀ i, i < subs.length → ∀ j, j < subs.length →
          task_id_format (s.task_counter + i + 1) = task_id_format (s.task_counter + j + 1) → i = j) →
      (break_down_goal s gid subs now).2
          = .ok { g with
                  tasks := g.tasks ++ (List.range subs.length).map
                    (fun i => task_id_format (s.task_counter + i + 1))
                  status := "in_progress"
                  updated_at := now } ∧
      alist_get (break_down_goal s gid subs now).1.goals gid
          = some { g with
                  tasks := g.tasks ++ (List.range subs.length).map
                    (fun i => task_id_format (s.task_counter + i + 1))
                  status := "in_progress"
                  updated_at := now } ∧
      (break_down_goal s gid subs now).1.task_counter = s.task_counter + subs.length ∧
      (break_down_goal s gid subs now).1.tasks.length = s.tasks.length + subs.length ∧
      (∀ i (hi : i < subs.length),
        alist_get (break_down_goal s gid subs now).1.tasks (task_id_format (s.task_counter + i + 1))
          = some (subtask_task gid now (task_id_format (s.task_counter + i + 1))
              (subs.get ⟨i, hi⟩)))) := by
  refine ⟨?_, ?_, ?_⟩
  · intro s gid subs now hg
    unfold break_down_goal
    rw [hg]
  · intro s gid g now hg
    unfold break_down_goal
    rw [hg]
    rfl
  · intro s gid g subs now hg hne hwf hfresh hdist
    rcases hx : break_down_goal_loop gid now s g subs with ⟨s1, gg, e⟩
    have hspec := bdg_loop_spec gid now subs s g hwf
    have htasks := bdg_loop_tasks_spec gid now subs s g hwf hfresh hdist
    rw [hx] at hspec htasks
    obtain ⟨hnone, hctr, _, hgoal⟩ := hspec
    obtain ⟨hlen, _, hget⟩ := htasks
    simp only at hnone hctr hgoal hlen hget
    subst hnone
    have hbd : break_down_goal s gid subs now
        = (persist_to_cache
            { s1 with goals := alist_set s1.goals gid { gg with updated_at := now, status := "in_progress" } }
            "goal" gid (.goalV { gg with updated_at := now, status := "in_progress" }) now,
          .ok { gg with updated_at := now, status := "in_progress" }) := by
      unfold break_down_goal
      rw [hg]
      dsimp only
      rw [if_neg (by simp [hne]), hx]
    rw [hbd]
    subst hgoal
    refine ⟨?_, ?_, ?_, ?_, ?_⟩
    · cases g
      rfl
    · simp only [persist_to_cache_goals]
      rw [alist_get_set_self]
    · simp only [persist_to_cache_task_counter]
      exact hctr
    · simp only [persist_to_cache_tasks]
      exact hlen
    · intro i hi
      simp only [persist_to_cache_tasks]
      exact hget i hi

/-- C9: `break_down_goal` is not atomic on validation failure — when the
subtask at position `|pre|` lacks a description, the call raises only after
every subtask in `pre` has been created as a task, registered in the task map
and appended to the goal's task list, while the goal's status (and every other
goal field except `tasks`) is left unchanged, not yet `in_progress`. -/
theorem c9_break_down_goal_partial (s : AgentState) (gid : String) (g : Goal)
    (pre : List SubtaskDef) (bad : SubtaskDef) (rest : List SubtaskDef) (now : String)
    (hg : alist_get s.goals gid = some g)
    (hpre : pre ≠ [])
    (hwf : ∀ d ∈ pre, opt_str_truthy d.description = true)
    (hbad : opt_str_truthy bad.description = false)
    (hfresh : ∀ i, i < pre.length → alist_get s.tasks (task_id_format (s.task_counter + i + 1)) = none)
    (hdist : ∀ i, i < pre.length → ∀ j, j < pre.length →
        task_id_format (s.task_counter + i + 1) = task_id_format (s.task_counter + j + 1) → i = j) :
    (break_down_goal s gid (pre ++ bad :: rest) now).2
        = .error (.valueError "Each subtask must have a description") ∧
    (break_down_goal s gid (pre ++ bad :: rest) now).1.task_counter
        = s.task_counter + pre.length ∧
    (break_down_goal s gid (pre ++ bad :: rest) now).1.tasks.length
        = s.tasks.length + pre.length ∧
    (∀ i (hi : i < pre.length),
      alist_get (break_down_goal s gid (pre ++ bad :: rest) now).1.tasks
          (task_id_format (s.task_counter + i + 1))
        = some (subtask_task gid now (task_id_format (s.task_counter + i + 1))
            (pre.get ⟨i, hi⟩))) ∧
    alist_get (break_down_goal s gid (pre ++ bad :: rest) now).1.goals gid
        = some { g with tasks := g.tasks ++ (List.range pre.length).map (fun i => task_id_format (s.task_counter + i + 1)) } := by
  have hloop := bdg_loop_err gid now bad rest hbad pre s g hwf
  have hbd : break_down_goal s gid (pre ++ bad :: rest) now
      = ((break_down_goal_loop gid now s g pre).1,
         .error (.valueError "Each subtask must have a description")) := by
    unfold break_down_goal
    rw [hg]
    dsimp only
    rw [if_neg (by simp), hloop]
  rw [hbd]
  have hspec := bdg_loop_spec gid now pre s g hwf
  obtain ⟨_, hctr, _, hgoal⟩ := hspec
  obtain ⟨hlen, _, hget⟩ := bdg_loop_tasks_spec gid now pre s g hwf hfresh hdist
  refine ⟨rfl, hctr, hlen, hget, ?_⟩
  rw [bdg_loop_get_goal gid now pre s g hwf hpre, hgoal]

/-- A fresh goal with no tasks yet. -/
def state_bd : AgentState :=
  { goals := [("GOAL-0001", mk_goal "GOAL-0001" [] "planned")]
    tasks := []
    goal_counter := 1
    task_counter := 0
    cache := cache_off
    redis := [] }

/-- A subtask with an invalid priority. -/
def sub_a : SubtaskDef :=
  { description := some "A", type := none, priority := some "urgent",
    dependencies := [], repo := none, jira_ticket := none,
    estimated_effort := none, tools := [] }

/-- A subtask whose dependency list names a not-yet-existing task. -/
def sub_b : SubtaskDef :=
  { description := some "B", type := none, priority := none,
    dependencies := ["TASK-0001", "NOPE"], repo := none, jira_ticket := none,
    estimated_effort := none, tools := [] }

/-- A subtask lacking a description. -/
def sub_bad : SubtaskDef :=
  { description := none, type := none, priority := none, dependencies := [],
    repo := none, jira_ticket := none, estimated_effort := none, tools := [] }

/-- C5 witness: breaking a fresh goal into two well-formed subtasks (one with
an invalid priority, one depending on a not-yet-existing id) creates exactly
two pending tasks, normalizes the priority to `medium`, and flips the goal to
`in_progress` with two task ids. -/
theorem c5_break_down_goal_witness :
    (break_down_goal state_bd "GOAL-0001" [sub_a, sub_b] "t1").1.task_counter = 0 + 2 ∧
    (break_down_goal state_bd "GOAL-0001" [sub_a, sub_b] "t1").1.tasks.length = 0 + 2 ∧
    ((break_down_goal state_bd "GOAL-0001" [sub_a, sub_b] "t1").2.toOption.map Goal.status
      = some "in_progress") ∧
    ((break_down_goal state_bd "GOAL-0001" [sub_a, sub_b] "t1").2.toOption.map
        (fun g => g.tasks.length) = some 2) ∧
    ((alist_get (break_down_goal state_bd "GOAL-0001" [sub_a, sub_b] "t1").1.tasks
        "TASK-0001").map Task.priority = some "medium") := by
  have h := c5_break_down_goal.2.2 state_bd "GOAL-0001" (mk_goal "GOAL-0001" [] "planned")
    [sub_a, sub_b] "t1" (by decide) (by decide) (by decide) (by decide) (by decide)
  obtain ⟨h1, _, h3, h4, h5⟩ := h
  refine ⟨h3, h4, ?_, ?_, ?_⟩
  · rw [h1]; rfl
  · rw [h1]; rfl
  · have := h5 0 (by decide)
    rw [show task_id_format (state_bd.task_counter + 0 + 1) = "TASK-0001" from by decide] at this
    rw [this]
    rfl

/-- C9 witness: with subtask 2 of 3 lacking a description, the call raises the
validation error, yet the first subtask has already been created, registered
and appended, while the goal stays `planned`. -/
theorem c9_break_down_goal_partial_witness :
    (break_down_goal state_bd "GOAL-0001" [sub_a, sub_bad, sub_b] "t1").2
        = .error (.valueError "Each subtask must have a description") ∧
    (break_down_goal state_bd "GOAL-0001" [sub_a, sub_bad, sub_b] "t1").1.task_counter = 0 + 1 ∧
    (break_down_goal state_bd "GOAL-0001" [sub_a, sub_bad, sub_b] "t1").1.tasks.length = 0 + 1 ∧
    ((alist_get (break_down_goal state_bd "GOAL-0001" [sub_a, sub_bad, sub_b] "t1").1.goals
        "GOAL-0001").map Goal.status = some "planned") ∧
    ((alist_get (break_down_goal state_bd "GOAL-0001" [sub_a, sub_bad, sub_b] "t1").1.goals
        "GOAL-0001").map Goal.tasks = some ["TASK-0001"]) := by
  have h := c9_break_down_goal_partial state_bd "GOAL-0001" (mk_goal "GOAL-0001" [] "planned")
    [sub_a] sub_bad [sub_b] "t1" (by decide) (by decide) (by decide) (by decide)
    (by decide) (by decide)
  simp only [List.cons_append, List.nil_append] at h
  obtain ⟨h1, h2, h3, _, h5⟩ := h
  refine ⟨h1, h2, h3, ?_, ?_⟩
  · rw [h5]; rfl
  · rw [h5]; rfl

/-! ### C4 — get_next_tasks -/

/-- Stability of the priority sort: within each priority rank, the sorted list
keeps exactly the filtered input order. -/
theorem insertionSort_filter_rank (l : List Task) (r : Nat) :
    (List.insertionSort task_le l).filter (fun t => priority_rank t.priority = r)
      = l.filter (fun t => priority_rank t.priority = r) := by
  have hc : (l.filter (fun t => priority_rank t.priority = r)).Pairwise task_le := by
    apply List.pairwise_of_forall_mem_list
    intro a ha b hb
    have ha' := (List.mem_filter.mp ha).2
    have hb' := (List.mem_filter.mp hb).2
    simp only [decide_eq_true_eq] at ha' hb'
    show priority_rank a.priority ≤ priority_rank b.priority
    rw [ha', hb']
  have hsub : List.Sublist (l.filter (fun t => priority_rank t.priority = r))
      (List.insertionSort task_le l) :=
    List.sublist_insertionSort hc (List.filter_sublist l)
  have hself : (l.filter (fun t => priority_rank t.priority = r)).filter
      (fun t => priority_rank t.priority = r) = l.filter (fun t => priority_rank t.priority = r) :=
    List.filter_eq_self.mpr (fun a ha => (List.mem_filter.mp ha).2)
  have hsub2 : List.Sublist (l.filter (fun t => priority_rank t.priority = r))
      ((List.insertionSort task_le l).filter (fun t => priority_rank t.priority = r)) := by
    have := hsub.filter (fun t => priority_rank t.priority = r)
    rwa [hself] at this
  have hlen : ((List.insertionSort task_le l).filter (fun t => priority_rank t.priority = r)).length
      = (l.filter (fun t => priority_rank t.priority = r)).length :=
    ((List.perm_insertionSort task_le l).filter _).length_eq
  exact (hsub2.eq_of_length hlen.symm).symm

/-- C4: `get_next_tasks` returns exactly the pending tasks of the candidate set
(the goal's tasks when a goal id is supplied, all tasks otherwise) whose every
dependency's looked-up status is `completed`; the result is sorted ascending by
priority rank (high = 0, medium = 1, low = 2, unknown = 1) and is stable: within
each rank the original candidate order is preserved. -/
theorem c4_get_next_tasks (s : AgentState) (goal_id : Option String)
    (tl l : List Task)
    (htl : tasks_to_check s goal_id = .ok tl)
    (h : get_next_tasks s goal_id = .ok l) :
    (∀ t, t ∈ l ↔ t ∈ tl ∧ t.status = "pending" ∧
        ∀ d ∈ t.dependencies, dep_status s d = "completed") ∧
    l.Pairwise (fun a b => priority_rank a.priority ≤ priority_rank b.priority) ∧
    (∀ r : Nat, l.filter (fun t => priority_rank t.priority = r)
        = (tl.filter (next_task_ok s)).filter (fun t => priority_rank t.priority = r)) := by
  have hl : l = List.insertionSort task_le (tl.filter (next_task_ok s)) := by
    unfold get_next_tasks at h
    rw [htl] at h
    dsimp only at h
    exact ((Except.ok.injEq _ _).mp h).symm
  subst hl
  refine ⟨?_, ?_, ?_⟩
  · intro t
    rw [List.mem_insertionSort, List.mem_filter]
    constructor
    · rintro ⟨hmem, hok⟩
      refine ⟨hmem, ?_, ?_⟩
      · have := (Bool.and_eq_true _ _).mp hok
        simpa using this.1
      · intro d hd
        have := (Bool.and_eq_true _ _).mp hok
        have h2 := List.all_eq_true.mp this.2 d hd
        simpa using h2
    · rintro ⟨hmem, hst, hdep⟩
      refine ⟨hmem, ?_⟩
      rw [next_task_ok]
      refine (Bool.and_eq_true _ _).mpr ⟨by simpa using hst, ?_⟩
      exact List.all_eq_true.mpr (fun d hd => by simpa using hdep d hd)
  · exact List.sorted_insertionSort task_le _
  · intro r
    exact insertionSort_filter_rank _ r

/-- A flat state with tasks of every priority, one blocked by a missing
dependency, one already completed. -/
def state_sort : AgentState :=
  { goals := []
    tasks := [("TASK-A", mk_task "TASK-A" "G" [] "pending" "low"),
              ("TASK-B", mk_task "TASK-B" "G" [] "pending" "high"),
              ("TASK-C", mk_task "TASK-C" "G" [] "pending" "medium"),
              ("TASK-D", mk_task "TASK-D" "G" [] "pending" "medium"),
              ("TASK-E", mk_task "TASK-E" "G" ["NOPE"] "pending" "high"),
              ("TASK-F", mk_task "TASK-F" "G" [] "completed" "high")]
    goal_counter := 0
    task_counter := 6
    cache := cache_off
    redis := [] }

/-- C4 witness: on `state_sort`, `get_next_tasks` returns high before the two
mediums (in input order) before low, excluding the completed task and the task
with a missing dependency; the rank-1 slice of the result equals the rank-1
slice of the eligible input. -/
theorem c4_get_next_tasks_witness :
    get_next_tasks state_sort none
      = Except.ok [mk_task "TASK-B" "G" [] "pending" "high",
                   mk_task "TASK-C" "G" [] "pending" "medium",
                   mk_task "TASK-D" "G" [] "pending" "medium",
                   mk_task "TASK-A" "G" [] "pending" "low"] ∧
    ([mk_task "TASK-B" "G" [] "pending" "high",
      mk_task "TASK-C" "G" [] "pending" "medium",
      mk_task "TASK-D" "G" [] "pending" "medium",
      mk_task "TASK-A" "G" [] "pending" "low"].filter
        (fun t => priority_rank t.priority = 1))
      = (((state_sort.tasks.map (fun p => p.2)).filter (next_task_ok state_sort)).filter
          (fun t => priority_rank t.priority = 1)) := by
  refine ⟨by decide, ?_⟩
  have h := c4_get_next_tasks state_sort none
    (state_sort.tasks.map (fun p => p.2))
    [mk_task "TASK-B" "G" [] "pending" "high",
     mk_task "TASK-C" "G" [] "pending" "medium",
     mk_task "TASK-D" "G" [] "pending" "medium",
     mk_task "TASK-A" "G" [] "pending" "low"]
    (by decide) (by decide)
  exact h.2.2 1

/-! ### C1 / C6 / C10 — the phase planner -/

/-- The ids of the tasks placed in a phase. -/
def phase_ids (p : Phase) : List String := p.tasks.map (·.id)

/-- A sweep's final completed set is the input set extended by the ids of the
tasks it extracted, in order. -/
theorem plan_sweep_completed (all_ids : List String) :
    ∀ (rem : List Task) (c : List String),
      (plan_sweep all_ids rem c).2.1 = c ++ ((plan_sweep all_ids rem c).1).map (·.id) := by
  intro rem
  induction rem with
  | nil => intro c; simp [plan_sweep]
  | cons t ts ih =>
    intro c
    unfold plan_sweep
    split
    · dsimp only
      rw [ih (c ++ [t.id])]
      simp
    · dsimp only
      exact ih c

/-- Every task a sweep extracts has each of its dependencies either among the
final completed ids or outside the task set. -/
theorem plan_sweep_extracted_deps (all_ids : List String) :
    ∀ (rem : List Task) (c : List String),
      ∀ t ∈ (plan_sweep all_ids rem c).1, ∀ d ∈ t.dependencies,
        d ∈ (plan_sweep all_ids rem c).2.1 ∨ d ∉ all_ids := by
  intro rem
  induction rem with
  | nil => intro c t ht; simp [plan_sweep] at ht
  | cons u ts ih =>
    intro c t ht d hd
    rw [plan_sweep] at ht ⊢
    by_cases hr : task_ready all_ids c u = true
    · rw [if_pos hr] at ht ⊢
      dsimp only at ht ⊢
      rcases List.mem_cons.mp ht with rfl | ht'
      · have hsat := List.all_eq_true.mp hr d hd
        rw [dep_satisfied, Bool.or_eq_true] at hsat
        rcases hsat with hc | hno
        · left
          rw [plan_sweep_completed]
          apply List.mem_append_left
          apply List.mem_append_left
          simpa using hc
        · right
          simpa using hno
      · exact ih (c ++ [u.id]) t ht' d hd
    · rw [if_neg hr] at ht ⊢
      dsimp only at ht ⊢
      exact ih c t ht d hd

/-- Every remaining task either gets extracted by the sweep or stays
remaining. -/
theorem plan_sweep_split (all_ids : List String) :
    ∀ (rem : List Task) (c : List String), ∀ t ∈ rem,
      t ∈ (plan_sweep all_ids rem c).1 ∨ t ∈ (plan_sweep all_ids rem c).2.2 := by
  intro rem
  induction rem with
  | nil => intro c t ht; cases ht
  | cons u ts ih =>
    intro c t ht
    rw [plan_sweep]
    by_cases hr : task_ready all_ids c u = true
    · rw [if_pos hr]
      dsimp only
      rcases List.mem_cons.mp ht with rfl | ht'
      · exact Or.inl (List.mem_cons_self _ _)
      · rcases ih (c ++ [u.id]) t ht' with h | h
        · exact Or.inl (List.mem_cons_of_mem _ h)
        · exact Or.inr h
    · rw [if_neg hr]
      dsimp only
      rcases List.mem_cons.mp ht with rfl | ht'
      · exact Or.inr (List.mem_cons_self _ _)
      · rcases ih c t ht' with h | h
        · exact Or.inl h
        · exact Or.inr (List.mem_cons_of_mem _ h)

/-- A sweep conserves the number of tasks. -/
theorem plan_sweep_length (all_ids : List String) :
    ∀ (rem : List Task) (c : List String),
      (plan_sweep all_ids rem c).1.length + (plan_sweep all_ids rem c).2.2.length = rem.length := by
  intro rem
  induction rem with
  | nil => intro c; simp [plan_sweep]
  | cons u ts ih =>
    intro c
    rw [plan_sweep]
    by_cases hr : task_ready all_ids c u = true
    · rw [if_pos hr]
      dsimp only
      simp only [List.length_cons]
      have := ih (c ++ [u.id])
      omega
    · rw [if_neg hr]
      dsimp only
      simp only [List.length_cons]
      have := ih c
      omega

/-- A task whose every dependency lies outside the task set is always
extracted, whatever the completed set. -/
theorem plan_sweep_foreign (all_ids : List String) :
    ∀ (rem : List Task) (c : List String), ∀ t ∈ rem,
      (∀ d ∈ t.dependencies, d ∉ all_ids) → t ∈ (plan_sweep all_ids rem c).1 := by
  intro rem
  induction rem with
  | nil => intro c t ht; cases ht
  | cons u ts ih =>
    intro c t ht hforeign
    rw [plan_sweep]
    rcases List.mem_cons.mp ht with rfl | ht'
    · have hr : task_ready all_ids c t = true := by
        apply List.all_eq_true.mpr
        intro d hd
        rw [dep_satisfied, Bool.or_eq_true]
        right
        simpa using hforeign d hd
      rw [if_pos hr]
      exact List.mem_cons_self _ _
    · by_cases hr : task_ready all_ids c u = true
      · rw [if_pos hr]
        exact List.mem_cons_of_mem _ (ih (c ++ [u.id]) t ht' hforeign)
      · rw [if_neg hr]
        exact ih c t ht' hforeign

/-- An empty sweep leaves the remaining tasks exactly as they were. -/
theorem plan_sweep_empty (all_ids : List String) :
    ∀ (rem : List Task) (c : List String),
      (plan_sweep all_ids rem c).1 = [] → (plan_sweep all_ids rem c).2.2 = rem := by
  intro rem
  induction rem with
  | nil => intro c _; simp [plan_sweep]
  | cons u ts ih =>
    intro c h
    rw [plan_sweep] at h ⊢
    by_cases hr : task_ready all_ids c u = true
    · rw [if_pos hr] at h
      dsimp only at h
      cases h
    · rw [if_neg hr] at h ⊢
      dsimp only at h ⊢
      rw [ih c h]

/-- `plan_loop` only ever appends phases. -/
theorem plan_loop_append (all_ids : List String) :
    ∀ (fuel : Nat) (rem : List Task) (c : List String) (phases : List Phase),
      ∃ suffix, plan_loop all_ids fuel rem c phases = phases ++ suffix := by
  intro fuel
  induction fuel with
  | zero => intro rem c phases; exact ⟨[], by simp [plan_loop]⟩
  | succ fuel ih =>
    intro rem c phases
    rw [plan_loop]
    by_cases hrem : rem.isEmpty = true
    · rw [if_pos hrem]
      exact ⟨[], by simp⟩
    · rw [if_neg hrem]
      dsimp only
      by_cases hsw : (plan_sweep all_ids rem c).1.isEmpty = true
      · rw [if_pos hsw]
        exact ⟨[cycle_phase (phases.length + 1) rem], rfl⟩
      · rw [if_neg hsw]
        obtain ⟨suffix, hs⟩ := ih (plan_sweep all_ids rem c).2.2 (plan_sweep all_ids rem c).2.1
          (phases ++ [normal_phase (phases.length + 1) (plan_sweep all_ids rem c).1])
        exact ⟨normal_phase (phases.length + 1) (plan_sweep all_ids rem c).1 :: suffix,
          by rw [hs]; simp⟩

/-- Dependency placement discipline of a phase list: every in-set dependency of
a placed task is itself placed in the same or an earlier phase. -/
def deps_ok (all_ids : List String) (phases : List Phase) : Prop :=
  ∀ (k : Nat) (p : Phase), phases[k]? = some p →
    ∀ t ∈ p.tasks, ∀ d ∈ t.dependencies, d ∈ all_ids →
      ∃ (j : Nat) (q : Phase), j ≤ k ∧ phases[j]? = some q ∧ d ∈ phase_ids q

theorem deps_ok_append (all_ids : List String) (phases : List Phase) (new : Phase)
    (hC : deps_ok all_ids phases)
    (hnew : ∀ t ∈ new.tasks, ∀ d ∈ t.dependencies, d ∈ all_ids →
        (∃ (i : Nat) (q : Phase), phases[i]? = some q ∧ d ∈ phase_ids q) ∨ d ∈ phase_ids new) :
    deps_ok all_ids (phases ++ [new]) := by
  intro k p hk t ht d hd hall
  by_cases hkl : k < phases.length
  · rw [List.getElem?_append_left hkl] at hk
    obtain ⟨j, q, hj, hjq, hdq⟩ := hC k p hk t ht d hd hall
    exact ⟨j, q, hj, by rw [List.getElem?_append_left (Nat.lt_of_le_of_lt hj hkl)]; exact hjq, hdq⟩
  · have hk' := hk
    rw [List.getElem?_append_right (Nat.le_of_not_lt hkl)] at hk'
    have hkeq : k = phases.length := by
      rcases Nat.lt_or_ge (k - phases.length) 1 with h1 | h1
      · omega
      · rw [List.getElem?_len_le (by simpa using h1)] at hk'
        cases hk'
    have hp : p = new := by
      rw [hkeq] at hk'
      exact (by simpa using hk' : new = p).symm
    subst hp
    rcases hnew t ht d hd hall with ⟨i, q, hiq, hdq⟩ | hdnew
    · have hilt : i < phases.length := by
        rcases List.getElem?_eq_some_iff.mp hiq with ⟨h, _⟩
        exact h
      exact ⟨i, q, by omega, by rw [List.getElem?_append_left hilt]; exact hiq, hdq⟩
    · refine ⟨k, _, Nat.le_refl _, ?_, hdnew⟩
      rw [hkeq]
      exact List.getElem?_concat_length _ _

/-- Main dependency-placement invariant of the planner loop. -/
theorem plan_loop_deps (all_ids : List String) :
    ∀ (fuel : Nat) (rem : List Task) (c : List String) (phases : List Phase),
      (∀ d ∈ c, ∃ (i : Nat) (q : Phase), phases[i]? = some q ∧ d ∈ phase_ids q) →
      (∀ d ∈ all_ids, d ∈ c ∨ d ∈ rem.map (·.id)) →
      deps_ok all_ids phases →
      deps_ok all_ids (plan_loop all_ids fuel rem c phases) := by
  intro fuel
  induction fuel with
  | zero => intro rem c phases _ _ hC; simpa [plan_loop] using hC
  | succ fuel ih =>
    intro rem c phases hA hB hC
    rw [plan_loop]
    by_cases hrem : rem.isEmpty = true
    · rw [if_pos hrem]; exact hC
    · rw [if_neg hrem]
      dsimp only
      by_cases hsw : (plan_sweep all_ids rem c).1.isEmpty = true
      · rw [if_pos hsw]
        apply deps_ok_append all_ids phases _ hC
        intro t _ d hd hall
        rcases hB d hall with hc | hr
        · exact Or.inl (hA d hc)
        · right
          simpa [phase_ids, cycle_phase] using hr
      · rw [if_neg hsw]
        apply ih
        · -- hA for the extended completed set and phase list
          intro d hdc
          rw [plan_sweep_completed] at hdc
          rcases List.mem_append.mp hdc with hc | hnewid
          · obtain ⟨i, q, hiq, hdq⟩ := hA d hc
            have hilt : i < phases.length := (List.getElem?_eq_some_iff.mp hiq).1
            exact ⟨i, q, by rw [List.getElem?_append_left hilt]; exact hiq, hdq⟩
          · exact ⟨phases.length, normal_phase (phases.length + 1) (plan_sweep all_ids rem c).1,
              List.getElem?_concat_length _ _, hnewid⟩
        · -- hB for the new remaining set
          intro d hall
          rcases hB d hall with hc | hr
          · left
            rw [plan_sweep_completed]
            exact List.mem_append_left _ hc
          · obtain ⟨t, ht, rfl⟩ := List.mem_map.mp hr
            rcases plan_sweep_split all_ids rem c t ht with hx | hx
            · left
              rw [plan_sweep_completed]
              exact List.mem_append_right _ (List.mem_map_of_mem _ hx)
            · right
              exact List.mem_map_of_mem _ hx
        · -- deps_ok for the extended phase list
          apply deps_ok_append all_ids phases _ hC
          intro t ht d hd hall
          rcases plan_sweep_extracted_deps all_ids rem c t ht d hd with hx | hx
          · rw [plan_sweep_completed] at hx
            rcases List.mem_append.mp hx with hc | hnewid
            · exact Or.inl (hA d hc)
            · exact Or.inr hnewid
          · exact absurd hall hx

/-- Within `remaining.length < fuel`, every remaining task ends up in some
phase of the final plan. -/
theorem plan_loop_coverage (all_ids : List String) :
    ∀ (fuel : Nat) (rem : List Task) (c : List String) (phases : List Phase),
      rem.length < fuel →
      ∀ t ∈ rem, ∃ p ∈ plan_loop all_ids fuel rem c phases, t ∈ p.tasks := by
  intro fuel
  induction fuel with
  | zero => intro rem c phases h; omega
  | succ fuel ih =>
    intro rem c phases hlt t ht
    rw [plan_loop]
    by_cases hrem : rem.isEmpty = true
    · rw [List.isEmpty_iff.mp hrem] at ht
      cases ht
    · rw [if_neg hrem]
      dsimp only
      by_cases hsw : (plan_sweep all_ids rem c).1.isEmpty = true
      · rw [if_pos hsw]
        refine ⟨cycle_phase (phases.length + 1) rem, List.mem_append_right _ (by simp), ?_⟩
        rw [cycle_phase]
        exact ht
      · rw [if_neg hsw]
        rcases plan_sweep_split all_ids rem c t ht with hx | hx
        · obtain ⟨suffix, hs⟩ := plan_loop_append all_ids fuel (plan_sweep all_ids rem c).2.2
            (plan_sweep all_ids rem c).2.1
            (phases ++ [normal_phase (phases.length + 1) (plan_sweep all_ids rem c).1])
          refine ⟨normal_phase (phases.length + 1) (plan_sweep all_ids rem c).1, ?_, hx⟩
          rw [hs]
          exact List.mem_append_left _ (List.mem_append_right _ (by simp))
        · apply ih
          · have hlen := plan_sweep_length all_ids rem c
            have hpos : 0 < (plan_sweep all_ids rem c).1.length := by
              rcases Nat.eq_zero_or_pos (plan_sweep all_ids rem c).1.length with h0 | hp
              · exact absurd (by simpa using List.length_eq_zero.mp h0) (by simpa using hsw)
              · exact hp
            omega
          · exact hx

/-- Only the terminal phase may carry a warning, and it is always the
circular-dependency warning. -/
theorem plan_loop_warning (all_ids : List String) :
    ∀ (fuel : Nat) (rem : List Task) (c : List String) (phases : List Phase),
      (∀ p ∈ phases, p.warning = none) →
      ∀ (k : Nat) (p : Phase), (plan_loop all_ids fuel rem c phases)[k]? = some p →
        p.warning.isSome = true →
        k + 1 = (plan_loop all_ids fuel rem c phases).length ∧
        p.warning = some "Circular dependencies detected" := by
  intro fuel
  induction fuel with
  | zero =>
    intro rem c phases hnone k p hk hw
    rw [plan_loop] at hk ⊢
    have hp : p ∈ phases := by
      rcases List.getElem?_eq_some_iff.mp hk with ⟨h, he⟩
      exact he ▸ List.getElem_mem h
    rw [hnone p hp] at hw
    cases hw
  | succ fuel ih =>
    intro rem c phases hnone k p hk hw
    rw [plan_loop] at hk ⊢
    by_cases hrem : rem.isEmpty = true
    · rw [if_pos hrem] at hk ⊢
      have hp : p ∈ phases := by
        rcases List.getElem?_eq_some_iff.mp hk with ⟨h, he⟩
        exact he ▸ List.getElem_mem h
      rw [hnone p hp] at hw
      cases hw
    · rw [if_neg hrem] at hk ⊢
      dsimp only at hk ⊢
      by_cases hsw : (plan_sweep all_ids rem c).1.isEmpty = true
      · rw [if_pos hsw] at hk ⊢
        by_cases hkl : k < phases.length
        · rw [List.getElem?_append_left hkl] at hk
          have hp : p ∈ phases := by
            rcases List.getElem?_eq_some_iff.mp hk with ⟨h, he⟩
            exact he ▸ List.getElem_mem h
          rw [hnone p hp] at hw
          cases hw
        · have hk' := hk
          rw [List.getElem?_append_right (Nat.le_of_not_lt hkl)] at hk'
          have hkeq : k = phases.length := by
            rcases Nat.lt_or_ge (k - phases.length) 1 with h1 | h1
            · omega
            · rw [List.getElem?_len_le (by simpa using h1)] at hk'
              cases hk'
          have hp : p = cycle_phase (phases.length + 1) rem := by
            rw [hkeq] at hk'
            exact (by simpa using hk' : _ = p).symm
          subst hp
          constructor
          · rw [List.length_append]
            simp only [List.length_singleton]
            omega
          · rfl
      · rw [if_neg hsw] at hk ⊢
        exact ih _ _ _
          (by
            intro q hq
            rcases List.mem_append.mp hq with hql | hqr
            · exact hnone q hql
            · rcases List.mem_singleton.mp hqr with rfl
              rfl)
          k p hk hw

/-- The loop emits at most one phase per unit of fuel. -/
theorem plan_loop_length (all_ids : List String) :
    ∀ (fuel : Nat) (rem : List Task) (c : List String) (phases : List Phase),
      (plan_loop all_ids fuel rem c phases).length ≤ phases.length + fuel := by
  intro fuel
  induction fuel with
  | zero => intro rem c phases; simp [plan_loop]
  | succ fuel ih =>
    intro rem c phases
    rw [plan_loop]
    by_cases hrem : rem.isEmpty = true
    · rw [if_pos hrem]; omega
    · rw [if_neg hrem]
      dsimp only
      by_cases hsw : (plan_sweep all_ids rem c).1.isEmpty = true
      · rw [if_pos hsw]
        simp only [List.length_append, List.length_singleton]
        omega
      · rw [if_neg hsw]
        have := ih (plan_sweep all_ids rem c).2.2 (plan_sweep all_ids rem c).2.1
          (phases ++ [normal_phase (phases.length + 1) (plan_sweep all_ids rem c).1])
        simp only [List.length_append, List.length_singleton] at this
        omega

/-- Unpacking a successful `generate_execution_plan`: either the goal has no
existing tasks and the plan is empty, or the phases come from `plan_loop` on
the goal's existing tasks with fuel `task_count + 1`. -/
theorem gep_ok_cases (s : AgentState) (gid : String) (g : Goal) (plan : Plan)
    (hg : alist_get s.goals gid = some g)
    (h : generate_execution_plan s gid = .ok plan) :
    (g.tasks.filterMap (fun tid => alist_get s.tasks tid) = [] ∧
      plan.execution_phases = [] ∧ plan.total_tasks = 0) ∨
    (g.tasks.filterMap (fun tid => alist_get s.tasks tid) ≠ [] ∧
      plan.execution_phases
        = plan_loop ((g.tasks.filterMap (fun tid => alist_get s.tasks tid)).map (·.id))
            ((g.tasks.filterMap (fun tid => alist_get s.tasks tid)).length + 1)
            (g.tasks.filterMap (fun tid => alist_get s.tasks tid)) [] [] ∧
      plan.total_tasks = (g.tasks.filterMap (fun tid => alist_get s.tasks tid)).length) := by
  unfold generate_execution_plan at h
  rw [hg] at h
  dsimp only at h
  by_cases hemp : (g.tasks.filterMap (fun tid => alist_get s.tasks tid)).isEmpty = true
  · rw [if_pos hemp] at h
    have hp := (Except.ok.injEq _ _).mp h
    left
    exact ⟨List.isEmpty_iff.mp hemp, by rw [← hp], by rw [← hp]⟩
  · rw [if_neg hemp] at h
    have hp := (Except.ok.injEq _ _).mp h
    right
    exact ⟨fun hn => hemp (by simp [hn]), by rw [← hp], by rw [← hp]⟩

/-- C1 (amended): in every plan `generate_execution_plan` produces, each
dependency of a placed task whose id belongs to the goal's task set appears in
the same or an earlier phase (`j ≤ k`). Strictly-earlier placement does not
hold: a sweep marks each extracted task's id completed immediately, so a
dependency extracted earlier in the same sweep lands in the same phase. -/
theorem c1_plan_dependencies (s : AgentState) (gid : String) (g : Goal) (plan : Plan)
    (hg : alist_get s.goals gid = some g)
    (h : generate_execution_plan s gid = .ok plan) :
    ∀ (k : Nat) (p : Phase), plan.execution_phases[k]? = some p →
      ∀ t ∈ p.tasks, ∀ d ∈ t.dependencies,
        d ∈ (g.tasks.filterMap (fun tid => alist_get s.tasks tid)).map (·.id) →
        ∃ (j : Nat) (q : Phase), j ≤ k ∧ plan.execution_phases[j]? = some q ∧ d ∈ phase_ids q := by
  rcases gep_ok_cases s gid g plan hg h with ⟨_, hph, _⟩ | ⟨_, hph, _⟩
  · intro k p hk
    rw [hph] at hk
    simp at hk
  · rw [hph]
    apply plan_loop_deps
    · intro d hd
      cases hd
    · intro d hall
      exact Or.inr hall
    · intro k p hk
      simp at hk

/-- The goal of `state_g1`'s plan: both tasks land in phase 1 even though the
second depends on the first. -/
theorem c1_counterexample :
    ((generate_execution_plan state_g1 "GOAL-0001").toOption.map
        (fun pl => pl.execution_phases.map (fun p => p.tasks.map (fun t => (t.id, t.dependencies))))
      = some [[("TASK-0001", []), ("TASK-0002", ["TASK-0001"])]]) ∧
    ((generate_execution_plan state_g1 "GOAL-0001").toOption.map Plan.total_phases = some 1) ∧
    ((generate_execution_plan state_g1 "GOAL-0001").toOption.map
        (fun pl => pl.execution_phases.map (fun p => p.parallel_execution_possible))
      = some [some true]) := by
  refine ⟨by decide, by decide, by decide⟩

/-- C1 amended-claim witness: in the one-phase plan of `state_g1`, the
dependency `TASK-0001` of `TASK-0002` (placed in phase index 0) is found in a
phase index `j ≤ 0`. -/
theorem c1_plan_dependencies_witness :
    "TASK-0001" ∈ phase_ids (normal_phase 1
      [mk_task "TASK-0001" "GOAL-0001" [] "pending" "medium",
       mk_task "TASK-0002" "GOAL-0001" ["TASK-0001"] "pending" "high"]) := by
  have h := c1_plan_dependencies state_g1 "GOAL-0001"
    (mk_goal "GOAL-0001" ["TASK-0001", "TASK-0002"] "in_progress")
    { goal_id := "GOAL-0001"
      goal_description := "g"
      total_tasks := 2
      total_phases := 1
      execution_phases := [normal_phase 1
        [mk_task "TASK-0001" "GOAL-0001" [] "pending" "medium",
         mk_task "TASK-0002" "GOAL-0001" ["TASK-0001"] "pending" "high"]]
      message := none }
    (by decide) (by decide) 0
    (normal_phase 1
      [mk_task "TASK-0001" "GOAL-0001" [] "pending" "medium",
       mk_task "TASK-0002" "GOAL-0001" ["TASK-0001"] "pending" "high"])
    (by decide)
    (mk_task "TASK-0002" "GOAL-0001" ["TASK-0001"] "pending" "high")
    (by decide) "TASK-0001" (by decide) (by decide)
  obtain ⟨j, q, hj, hq, hd⟩ := h
  have hj0 : j = 0 := Nat.le_zero.mp hj
  subst hj0
  have hq' : q = normal_phase 1
      [mk_task "TASK-0001" "GOAL-0001" [] "pending" "medium",
       mk_task "TASK-0002" "GOAL-0001" ["TASK-0001"] "pending" "high"] := by
    have : ([normal_phase 1
        [mk_task "TASK-0001" "GOAL-0001" [] "pending" "medium",
         mk_task "TASK-0002" "GOAL-0001" ["TASK-0001"] "pending" "high"]] : List Phase)[0]?
        = some (normal_phase 1
          [mk_task "TASK-0001" "GOAL-0001" [] "pending" "medium",
           mk_task "TASK-0002" "GOAL-0001" ["TASK-0001"] "pending" "high"]) := rfl
    rw [this] at hq
    exact (Option.some.inj hq).symm
  subst hq'
  exact hd

/-- C6: a successful plan always covers every existing task of the goal within
the `task_count + 1` iteration bound (the loop is structurally fuel-bounded, so
it always terminates), the number of phases never exceeds `task_count + 1`,
and a warning phase — produced exactly when a sweep extracts nothing while
tasks remain, carrying the remaining tasks — is always the terminal phase with
the circular-dependency warning. -/
theorem c6_plan_termination (s : AgentState) (gid : String) (g : Goal) (plan : Plan)
    (hg : alist_get s.goals gid = some g)
    (h : generate_execution_plan s gid = .ok plan) :
    plan.execution_phases.length ≤ plan.total_tasks + 1 ∧
    (∀ t ∈ g.tasks.filterMap (fun tid => alist_get s.tasks tid),
        ∃ p ∈ plan.execution_phases, t ∈ p.tasks) ∧
    (∀ (k : Nat) (p : Phase), plan.execution_phases[k]? = some p →
        p.warning.isSome = true →
        k + 1 = plan.execution_phases.length ∧
        p.warning = some "Circular dependencies detected") := by
  rcases gep_ok_cases s gid g plan hg h with ⟨htasks, hph, htot⟩ | ⟨_, hph, htot⟩
  · refine ⟨by rw [hph]; simp, ?_, ?_⟩
    · intro t ht
      rw [htasks] at ht
      cases ht
    · intro k p hk
      rw [hph] at hk
      simp at hk
  · refine ⟨?_, ?_, ?_⟩
    · rw [hph, htot]
      have := plan_loop_length
        ((g.tasks.filterMap (fun tid => alist_get s.tasks tid)).map (·.id))
        ((g.tasks.filterMap (fun tid => alist_get s.tasks tid)).length + 1)
        (g.tasks.filterMap (fun tid => alist_get s.tasks tid)) [] []
      simpa using this
    · intro t ht
      rw [hph]
      exact plan_loop_coverage _ _ _ _ _ (by omega) t ht
    · rw [hph]
      exact plan_loop_warning _ _ _ _ _ (fun p hp => by cases hp)

/-- A goal whose two tasks form a dependency cycle. -/
def state_cycle : AgentState :=
  { goals := [("GOAL-0001", mk_goal "GOAL-0001" ["TASK-0001", "TASK-0002"] "in_progress")]
    tasks := [("TASK-0001", mk_task "TASK-0001" "GOAL-0001" ["TASK-0002"] "pending" "medium"),
              ("TASK-0002", mk_task "TASK-0002" "GOAL-0001" ["TASK-0001"] "pending" "high")]
    goal_counter := 1
    task_counter := 2
    cache := cache_off
    redis := [] }

/-- The plan `generate_execution_plan` produces on `state_cycle`. -/
def plan_cycle : Plan :=
  { goal_id := "GOAL-0001"
    goal_description := "g"
    total_tasks := 2
    total_phases := 1
    execution_phases := [cycle_phase 1
      [mk_task "TASK-0001" "GOAL-0001" ["TASK-0002"] "pending" "medium",
       mk_task "TASK-0002" "GOAL-0001" ["TASK-0001"] "pending" "high"]]
    message := none }

/-- C6 witness: the cyclic task set yields one terminal phase carrying the
circular-dependency warning, within the `task_count + 1` bound. -/
theorem c6_plan_termination_witness :
    generate_execution_plan state_cycle "GOAL-0001" = Except.ok plan_cycle ∧
    plan_cycle.execution_phases.length ≤ plan_cycle.total_tasks + 1 ∧
    (0 + 1 = plan_cycle.execution_phases.length ∧
      (cycle_phase 1
        [mk_task "TASK-0001" "GOAL-0001" ["TASK-0002"] "pending" "medium",
         mk_task "TASK-0002" "GOAL-0001" ["TASK-0001"] "pending" "high"]).warning
        = some "Circular dependencies detected") := by
  have h := c6_plan_termination state_cycle "GOAL-0001"
    (mk_goal "GOAL-0001" ["TASK-0001", "TASK-0002"] "in_progress") plan_cycle
    (by decide) (by decide)
  exact ⟨by decide, h.1, h.2.2 0 _ (by decide) (by decide)⟩

/-- `delete_task` removes exactly the deleted id from the task map; every other
entry — dependency lists included — is untouched. -/
theorem delete_task_tasks_map (s : AgentState) (task_id now : String)
    (task : Task) (hm : alist_get s.tasks task_id = some task) :
    (delete_task s task_id now).1.tasks = alist_erase s.tasks task_id := by
  unfold delete_task
  rw [hm]
  dsimp only
  cases hg : alist_get s.goals task.goal_id with
  | none => rfl
  | some g =>
    dsimp only
    by_cases hc : g.tasks.contains task_id = true
    · rw [if_pos hc]
      simp
    · rw [if_neg hc]

/-- Whatever the loop does, a phase already emitted at the head stays the
first phase of the final plan. -/
theorem plan_loop_getzero (all_ids : List String) (fuel : Nat) (rem : List Task)
    (c : List String) (ph0 : Phase) (phases : List Phase) :
    (plan_loop all_ids fuel rem c (ph0 :: phases))[0]? = some ph0 := by
  obtain ⟨suffix, hs⟩ := plan_loop_append all_ids fuel rem c (ph0 :: phases)
  rw [hs]
  simp

/-- C10: a dependency id referencing no existing task blocks its dependent in
`get_next_tasks` but not in `generate_execution_plan`: (a) `delete_task` never
rewrites surviving tasks' dependency lists (the deleted id stays listed); (b)
every task `get_next_tasks` returns has each dependency resolving to an
EXISTING task with status `completed` — so a pending task with a missing
(e.g. deleted) dependency is never returned; (c) a task whose every dependency
lies outside the goal's task set is placed in the very first phase of the
plan, the missing ids being treated as satisfied. -/
theorem c10_missing_dependency :
    (∀ (s : AgentState) (task_id now : String) (s' : AgentState) (r : DeleteTaskResult),
      delete_task s task_id now = (s', .ok r) →
      alist_get s'.tasks task_id = none ∧
      (∀ k, k ≠ task_id → alist_get s'.tasks k = alist_get s.tasks k)) ∧
    (∀ (s : AgentState) (goal_id : Option String) (l : List Task) (t : Task) (d : String),
      get_next_tasks s goal_id = .ok l → t ∈ l → d ∈ t.dependencies →
      ∃ u, alist_get s.tasks d = some u ∧ u.status = "completed") ∧
    (∀ (s : AgentState) (gid : String) (g : Goal) (plan : Plan) (t : Task),
      alist_get s.goals gid = some g →
      generate_execution_plan s gid = .ok plan →
      t ∈ g.tasks.filterMap (fun tid => alist_get s.tasks tid) →
      (∀ d ∈ t.dependencies,
        d ∉ (g.tasks.filterMap (fun tid => alist_get s.tasks tid)).map (·.id)) →
      ∃ p, plan.execution_phases[0]? = some p ∧ t ∈ p.tasks) := by
  refine ⟨?_, ?_, ?_⟩
  · intro s task_id now s' r h
    cases hm : alist_get s.tasks task_id with
    | none =>
      unfold delete_task at h
      rw [hm] at h
      simp at h
    | some task =>
      have hts : s'.tasks = alist_erase s.tasks task_id := by
        have := delete_task_tasks_map s task_id now task hm
        rw [h] at this
        exact this
      rw [hts]
      exact ⟨alist_get_erase_self _ _, fun k hk => alist_get_erase_ne _ _ _ hk⟩
  · intro s goal_id l t d h ht hd
    have hl : ∃ tl, tasks_to_check s goal_id = .ok tl ∧
        l = List.insertionSort task_le (tl.filter (next_task_ok s)) := by
      unfold get_next_tasks at h
      cases htc : tasks_to_check s goal_id with
      | error e => rw [htc] at h; cases h
      | ok tl =>
        rw [htc] at h
        dsimp only at h
        exact ⟨tl, rfl, ((Except.ok.injEq _ _).mp h).symm⟩
    obtain ⟨tl, _, rfl⟩ := hl
    have hmem := (List.mem_insertionSort task_le).mp ht
    have hok := (List.mem_filter.mp hmem).2
    have hdep := List.all_eq_true.mp ((Bool.and_eq_true _ _).mp hok).2 d hd
    simp only [decide_eq_true_eq] at hdep
    cases hu : alist_get s.tasks d with
    | none =>
      rw [dep_status, hu] at hdep
      exact absurd hdep (by decide)
    | some u =>
      refine ⟨u, rfl, ?_⟩
      rw [dep_status, hu] at hdep
      exact hdep
  · intro s gid g plan t hg h ht hforeign
    rcases gep_ok_cases s gid g plan hg h with ⟨htasks, _, _⟩ | ⟨_, hph, _⟩
    · rw [htasks] at ht
      cases ht
    · rw [hph]
      rw [plan_loop]
      rw [if_neg (by
        intro hemp
        rw [List.isEmpty_iff.mp hemp] at ht
        cases ht)]
      dsimp only
      have hsw1 : t ∈ (plan_sweep
          ((g.tasks.filterMap (fun tid => alist_get s.tasks tid)).map (·.id))
          (g.tasks.filterMap (fun tid => alist_get s.tasks tid)) []).1 :=
        plan_sweep_foreign _ _ [] t ht (fun d hd => hforeign d hd)
      rw [if_neg (by
        intro hsw
        rw [List.isEmpty_iff.mp hsw] at hsw1
        cases hsw1)]
      simp only [List.nil_append]
      exact ⟨_, plan_loop_getzero _ _ _ _ _ _, hsw1⟩

/-- A goal whose second task depends on a task id that no longer exists (as
after `delete_task`). -/
def state_dangling : AgentState :=
  { goals := [("GOAL-0001", mk_goal "GOAL-0001" ["TASK-0002"] "in_progress")]
    tasks := [("TASK-0002", mk_task "TASK-0002" "GOAL-0001" ["TASK-0001"] "pending" "high")]
    goal_counter := 1
    task_counter := 2
    cache := cache_off
    redis := [] }

/-- `state_g1` with its first task already completed. -/
def state_done : AgentState :=
  { goals := [("GOAL-0001", mk_goal "GOAL-0001" ["TASK-0001", "TASK-0002"] "in_progress")]
    tasks := [("TASK-0001", mk_task "TASK-0001" "GOAL-0001" [] "completed" "medium"),
              ("TASK-0002", mk_task "TASK-0002" "GOAL-0001" ["TASK-0001"] "pending" "high")]
    goal_counter := 1
    task_counter := 2
    cache := cache_off
    redis := [] }

/-- C10 witness: deleting `TASK-0001` from `state_g1` keeps `TASK-0002`'s
dependency list intact while the deleted entry is gone (and indeed
`get_next_tasks` then returns nothing); a dependency of a returned next-task
always resolves to an existing completed task; and the task whose dependency
is missing from the goal's set still lands in phase 1 of the plan. -/
theorem c10_missing_dependency_witness :
    ((alist_get (delete_task state_g1 "TASK-0001" "t4").1.tasks "TASK-0002").map
        Task.dependencies = some ["TASK-0001"]) ∧
    alist_get (delete_task state_g1 "TASK-0001" "t4").1.tasks "TASK-0001" = none ∧
    get_next_tasks state_dangling none = Except.ok [] ∧
    ((alist_get state_done.tasks "TASK-0001").map Task.status = some "completed") ∧
    (mk_task "TASK-0002" "GOAL-0001" ["TASK-0001"] "pending" "high")
        ∈ (normal_phase 1 [mk_task "TASK-0002" "GOAL-0001" ["TASK-0001"] "pending" "high"]).tasks := by
  have ha := c10_missing_dependency.1 state_g1 "TASK-0001" "t4"
    (delete_task state_g1 "TASK-0001" "t4").1
    { deleted_task_id := "TASK-0001", goal_id := "GOAL-0001",
      dependent_tasks := ["TASK-0002"], success := true }
    (by decide)
  have hb := c10_missing_dependency.2.1 state_done none
    [mk_task "TASK-0002" "GOAL-0001" ["TASK-0001"] "pending" "high"]
    (mk_task "TASK-0002" "GOAL-0001" ["TASK-0001"] "pending" "high")
    "TASK-0001" (by decide) (by decide) (by decide)
  have hc := c10_missing_dependency.2.2 state_dangling "GOAL-0001"
    (mk_goal "GOAL-0001" ["TASK-0002"] "in_progress")
    { goal_id := "GOAL-0001"
      goal_description := "g"
      total_tasks := 1
      total_phases := 1
      execution_phases := [normal_phase 1 [mk_task "TASK-0002" "GOAL-0001" ["TASK-0001"] "pending" "high"]]
      message := none }
    (mk_task "TASK-0002" "GOAL-0001" ["TASK-0001"] "pending" "high")
    (by decide) (by decide) (by decide) (by decide)
  obtain ⟨p, hp, htp⟩ := hc
  have hp' : p = normal_phase 1 [mk_task "TASK-0002" "GOAL-0001" ["TASK-0001"] "pending" "high"] := by
    have hrfl : ([normal_phase 1 [mk_task "TASK-0002" "GOAL-0001" ["TASK-0001"] "pending" "high"]] :
        List Phase)[0]? = some (normal_phase 1 [mk_task "TASK-0002" "GOAL-0001" ["TASK-0001"] "pending" "high"]) := rfl
    rw [hrfl] at hp
    exact (Option.some.inj hp).symm
  refine ⟨?_, ha.1, by decide, ?_, ?_⟩
  · rw [ha.2 "TASK-0002" (by decide)]
    decide
  · obtain ⟨u, hu, hst⟩ := hb
    rw [hu, Option.map_some']
    rw [hst]
  · rw [← hp']
    exact htp

/-! ### C7 — cache failures are never surfaced -/

/-- Two states agreeing on the cache-independent core have equal entity
fields. -/
theorem core_fields {s s' : AgentState} (h : s.core = s'.core) :
    s.goals = s'.goals ∧ s.tasks = s'.tasks ∧
    s.goal_counter = s'.goal_counter ∧ s.task_counter = s'.task_counter := by
  rw [AgentState.core, AgentState.core, Prod.mk.injEq, Prod.mk.injEq, Prod.mk.injEq] at h
  exact ⟨h.1, h.2.1, h.2.2.1, h.2.2.2⟩

theorem create_goal_core_congr (s s' : AgentState) (d p : String)
    (r : List String) (md : List (String × String)) (now : String)
    (h : s.core = s'.core) :
    (create_goal s d p r md now).1.core = (create_goal s' d p r md now).1.core ∧
    (create_goal s d p r md now).2 = (create_goal s' d p r md now).2 := by
  obtain ⟨hgoals, htasks, hgc, htc⟩ := core_fields h
  unfold create_goal
  by_cases h1 : strip_string d = ""
  · simp [h1, h]
  · by_cases h2 : ((p = "high") || (p = "medium") || (p = "low")) = true
    · simp only [if_neg h1, h2, Bool.not_true, Bool.false_eq_true, if_false]
      constructor
      · rw [AgentState.core, AgentState.core]
        simp [hgoals, hgc, htasks, htc]
      · rw [hgc]
    · simp [h1, h2, h]

theorem dep_status_congr {s s' : AgentState} (h : s.core = s'.core) :
    dep_status s = dep_status s' := by
  funext d
  unfold dep_status
  rw [(core_fields h).2.1]

theorem next_task_ok_congr {s s' : AgentState} (h : s.core = s'.core) :
    next_task_ok s = next_task_ok s' := by
  funext t
  unfold next_task_ok
  rw [dep_status_congr h]

theorem tasks_to_check_congr {s s' : AgentState} (h : s.core = s'.core)
    (goal_id : Option String) : tasks_to_check s goal_id = tasks_to_check s' goal_id := by
  obtain ⟨hgoals, htasks, _, _⟩ := core_fields h
  unfold tasks_to_check
  cases goal_id with
  | none => dsimp only; rw [htasks]
  | some gid =>
    dsimp only
    rw [hgoals]
    cases alist_get s'.goals gid with
    | none => rfl
    | some g => dsimp only; rw [htasks]

theorem get_next_tasks_congr {s s' : AgentState} (h : s.core = s'.core)
    (goal_id : Option String) : get_next_tasks s goal_id = get_next_tasks s' goal_id := by
  unfold get_next_tasks
  rw [tasks_to_check_congr h, next_task_ok_congr h]

theorem generate_execution_plan_congr {s s' : AgentState} (h : s.core = s'.core)
    (goal_id : String) : generate_execution_plan s goal_id = generate_execution_plan s' goal_id := by
  obtain ⟨hgoals, htasks, _, _⟩ := core_fields h
  unfold generate_execution_plan
  rw [hgoals]
  cases alist_get s'.goals goal_id with
  | none => rfl
  | some g => dsimp only; rw [htasks]

theorem list_goals_congr {s s' : AgentState} (h : s.core = s'.core)
    (st pr : Option String) : list_goals s st pr = list_goals s' st pr := by
  obtain ⟨hgoals, _, _, _⟩ := core_fields h
  unfold list_goals
  rw [hgoals]

theorem get_task_entity_congr {s s' : AgentState} (h : s.core = s'.core)
    (task_id : String) :
    (get_task s task_id).toOption.map (fun x => x.1)
      = (get_task s' task_id).toOption.map (fun x => x.1) := by
  obtain ⟨_, htasks, _, _⟩ := core_fields h
  unfold get_task
  rw [htasks]
  cases alist_get s'.tasks task_id with
  | none => rfl
  | some t => rfl

theorem get_goal_entity_congr {s s' : AgentState} (h : s.core = s'.core)
    (goal_id : String) :
    (get_goal s goal_id).toOption.map (fun gd => (gd.goal, gd.task_details))
      = (get_goal s' goal_id).toOption.map (fun gd => (gd.goal, gd.task_details)) := by
  obtain ⟨hgoals, htasks, _, _⟩ := core_fields h
  unfold get_goal
  rw [hgoals]
  cases alist_get s'.goals goal_id with
  | none => rfl
  | some g =>
    dsimp only
    rw [htasks]
    rfl

theorem update_task_status_core_congr (s s' : AgentState) (task_id st : String)
    (res : Option String) (now : String) (h : s.core = s'.core) :
    (update_task_status s task_id st res now).1.core
      = (update_task_status s' task_id st res now).1.core ∧
    (update_task_status s task_id st res now).2
      = (update_task_status s' task_id st res now).2 := by
  obtain ⟨hgoals, htasks, hgc, htc⟩ := core_fields h
  unfold update_task_status
  rw [htasks]
  cases hm : alist_get s'.tasks task_id with
  | none => exact ⟨h, rfl⟩
  | some task0 =>
    dsimp only
    by_cases hv : (!((st = "pending") || (st = "in_progress") || (st = "completed")
        || (st = "failed") || (st = "blocked"))) = true
    · rw [if_pos hv, if_pos hv]
      exact ⟨h, rfl⟩
    · rw [if_neg hv, if_neg hv]
      simp only [persist_to_cache_goals, persist_to_cache_tasks]
      rw [hgoals]
      cases hgm : alist_get s'.goals (apply_status_update task0 st res now).goal_id with
      | none =>
        refine ⟨?_, rfl⟩
        rw [AgentState.core, AgentState.core]
        simp [hgoals, hgc, htc]
      | some g =>
        refine ⟨?_, rfl⟩
        rw [AgentState.core, AgentState.core]
        simp [hgoals, hgc, htc]

set_option maxHeartbeats 1000000 in
theorem update_goal_core_congr (s s' : AgentState) (goal_id : String)
    (description priority status : Option String) (repos : Option (List String))
    (metadata : Option (List (String × String))) (now : String)
    (h : s.core = s'.core) :
    (update_goal s goal_id description priority status repos metadata now).1.core
      = (update_goal s' goal_id description priority status repos metadata now).1.core ∧
    (update_goal s goal_id description priority status repos metadata now).2
      = (update_goal s' goal_id description priority status repos metadata now).2 := by
  obtain ⟨hgoals, htasks, hgc, htc⟩ := core_fields h
  unfold update_goal
  rw [hgoals]
  cases hm : alist_get s'.goals goal_id with
  | none => exact ⟨h, rfl⟩
  | some g =>
    dsimp only
    by_cases h1 : (opt_str_truthy description && (strip_string (description.getD "") = "")) = true
    · simp only [h1, reduceIte]
      exact ⟨h, trivial⟩
    · simp only [h1, Bool.false_eq_true, if_false]
      by_cases h2 : (opt_str_truthy priority
          && !(((priority.getD "") = "high") || ((priority.getD "") = "medium")
            || ((priority.getD "") = "low"))) = true
      · simp only [h2, reduceIte]
        refine ⟨?_, trivial⟩
        rw [AgentState.core, AgentState.core]
        simp [htasks, hgc, htc]
      · simp only [h2, Bool.false_eq_true, if_false]
        by_cases h3 : (opt_str_truthy status
            && !(((status.getD "") = "planned") || ((status.getD "") = "in_progress")
              || ((status.getD "") = "completed") || ((status.getD "") = "cancelled"))) = true
        · simp only [h3, reduceIte]
          refine ⟨?_, trivial⟩
          rw [AgentState.core, AgentState.core]
          simp [htasks, hgc, htc]
        · simp only [h3, Bool.false_eq_true, if_false]
          refine ⟨?_, trivial⟩
          rw [AgentState.core, AgentState.core]
          simp [htasks, hgc, htc]

theorem delete_task_core_congr (s s' : AgentState) (task_id now : String)
    (h : s.core = s'.core) :
    (delete_task s task_id now).1.core = (delete_task s' task_id now).1.core ∧
    (delete_task s task_id now).2 = (delete_task s' task_id now).2 := by
  obtain ⟨hgoals, htasks, hgc, htc⟩ := core_fields h
  unfold delete_task
  rw [htasks]
  cases hm : alist_get s'.tasks task_id with
  | none => exact ⟨h, rfl⟩
  | some task =>
    dsimp only
    rw [hgoals]
    cases hgm : alist_get s'.goals task.goal_id with
    | none =>
      refine ⟨?_, rfl⟩
      rw [AgentState.core, AgentState.core]
      simp [hgoals, hgc, htc]
    | some g =>
      dsimp only
      by_cases hc : g.tasks.contains task_id = true
      · rw [if_pos hc, if_pos hc]
        refine ⟨?_, rfl⟩
        rw [AgentState.core, AgentState.core]
        simp [hgoals, hgc, htc]
      · rw [if_neg hc, if_neg hc]
        refine ⟨?_, rfl⟩
        rw [AgentState.core, AgentState.core]
        simp [hgoals, hgc, htc]

theorem delete_goal_tasks_goals : ∀ (tids : List String) (s : AgentState),
    (delete_goal_tasks s tids).goals = s.goals := by
  intro tids
  induction tids with
  | nil => intro s; rfl
  | cons tid rest ih =>
    intro s
    rw [delete_goal_tasks]
    dsimp only
    rw [ih]
    split <;> rfl

theorem delete_goal_tasks_goal_counter : ∀ (tids : List String) (s : AgentState),
    (delete_goal_tasks s tids).goal_counter = s.goal_counter := by
  intro tids
  induction tids with
  | nil => intro s; rfl
  | cons tid rest ih =>
    intro s
    rw [delete_goal_tasks]
    dsimp only
    rw [ih]
    split <;> rfl

theorem delete_goal_tasks_task_counter : ∀ (tids : List String) (s : AgentState),
    (delete_goal_tasks s tids).task_counter = s.task_counter := by
  intro tids
  induction tids with
  | nil => intro s; rfl
  | cons tid rest ih =>
    intro s
    rw [delete_goal_tasks]
    dsimp only
    rw [ih]
    split <;> rfl

theorem delete_goal_tasks_tasks_congr : ∀ (tids : List String) (s s' : AgentState),
    s.tasks = s'.tasks →
    (delete_goal_tasks s tids).tasks = (delete_goal_tasks s' tids).tasks := by
  intro tids
  induction tids with
  | nil => intro s s' h; exact h
  | cons tid rest ih =>
    intro s s' h
    rw [delete_goal_tasks, delete_goal_tasks]
    dsimp only
    rw [h]
    by_cases hm : (alist_get s'.tasks tid).isSome = true
    · rw [if_pos hm, if_pos hm]
      apply ih
      simp [h]
    · rw [if_neg hm, if_neg hm]
      exact ih _ _ h

theorem delete_goal_core_congr (s s' : AgentState) (goal_id now : String)
    (h : s.core = s'.core) :
    (delete_goal s goal_id now).1.core = (delete_goal s' goal_id now).1.core ∧
    (delete_goal s goal_id now).2 = (delete_goal s' goal_id now).2 := by
  obtain ⟨hgoals, htasks, hgc, htc⟩ := core_fields h
  unfold delete_goal
  rw [hgoals]
  cases hm : alist_get s'.goals goal_id with
  | none => exact ⟨h, rfl⟩
  | some g =>
    dsimp only
    refine ⟨?_, rfl⟩
    rw [AgentState.core, AgentState.core]
    simp only [save_full_state_goals, save_full_state_tasks, save_full_state_goal_counter,
      save_full_state_task_counter]
    simp [delete_goal_tasks_goals, delete_goal_tasks_goal_counter,
      delete_goal_tasks_task_counter, hgoals, hgc, htc,
      delete_goal_tasks_tasks_congr g.tasks s s' htasks]

theorem bdg_loop_core_congr (gid now : String) :
    ∀ (subs : List SubtaskDef) (s s' : AgentState) (g : Goal),
      s.core = s'.core →
      (break_down_goal_loop gid now s g subs).1.core
        = (break_down_goal_loop gid now s' g subs).1.core ∧
      (break_down_goal_loop gid now s g subs).2.1
        = (break_down_goal_loop gid now s' g subs).2.1 ∧
      (break_down_goal_loop gid now s g subs).2.2
        = (break_down_goal_loop gid now s' g subs).2.2 := by
  intro subs
  induction subs with
  | nil => intro s s' g h; exact ⟨h, rfl, rfl⟩
  | cons d rest ih =>
    intro s s' g h
    obtain ⟨hgoals, htasks, hgc, htc⟩ := core_fields h
    rw [break_down_goal_loop, break_down_goal_loop]
    by_cases hd : (!(opt_str_truthy d.description)) = true
    · rw [if_pos hd, if_pos hd]
      exact ⟨h, rfl, rfl⟩
    · rw [if_neg hd, if_neg hd]
      dsimp only
      rw [htc, htasks, hgoals]
      apply ih
      rw [AgentState.core, AgentState.core]
      simp [hgc]

theorem break_down_goal_core_congr (s s' : AgentState) (goal_id : String)
    (subtasks : List SubtaskDef) (now : String) (h : s.core = s'.core) :
    (break_down_goal s goal_id subtasks now).1.core
      = (break_down_goal s' goal_id subtasks now).1.core ∧
    (break_down_goal s goal_id subtasks now).2
      = (break_down_goal s' goal_id subtasks now).2 := by
  obtain ⟨hgoals, htasks, hgc, htc⟩ := core_fields h
  unfold break_down_goal
  rw [hgoals]
  cases hm : alist_get s'.goals goal_id with
  | none => exact ⟨h, rfl⟩
  | some g =>
    dsimp only
    by_cases hemp : subtasks.isEmpty = true
    · rw [if_pos hemp, if_pos hemp]
      exact ⟨h, rfl⟩
    · rw [if_neg hemp, if_neg hemp]
      obtain ⟨hcore, hgoal, herr⟩ := bdg_loop_core_congr goal_id now subtasks s s' g h
      rcases hx : break_down_goal_loop goal_id now s g subtasks with ⟨s1, g1, e1⟩
      rcases hx' : break_down_goal_loop goal_id now s' g subtasks with ⟨s1', g1', e1'⟩
      rw [hx, hx'] at hcore hgoal herr
      dsimp only at hcore hgoal herr ⊢
      subst hgoal
      subst herr
      cases e1 with
      | some e => exact ⟨hcore, rfl⟩
      | none =>
        obtain ⟨hg1, ht1, hc1, htc1⟩ := core_fields hcore
        refine ⟨?_, rfl⟩
        rw [AgentState.core, AgentState.core]
        simp [hg1, ht1, hc1, htc1]

theorem cache_set_failure (e hc f2 f3 f4 f5 : Bool) (store : List (String × CacheValue))
    (key : String) (v : CacheValue) (ttl : Nat) :
    cache_set ⟨e, hc, true, f2, f3, f4, f5⟩ store key v ttl = (store, false) := by
  cases e <;> cases hc <;> rfl

theorem cache_get_failure (e hc f1 f3 f4 f5 : Bool) (store : List (String × CacheValue))
    (key : String) :
    cache_get ⟨e, hc, f1, true, f3, f4, f5⟩ store key = none := by
  cases e <;> cases hc <;> rfl

theorem cache_delete_failure (e hc f1 f2 f4 f5 : Bool) (store : List (String × CacheValue))
    (keys : List String) :
    cache_delete ⟨e, hc, f1, f2, true, f4, f5⟩ store keys = (store, false) := by
  cases e <;> cases hc <;> rfl

theorem cache_keys_failure (e hc f1 f2 f3 f5 : Bool) (store : List (String × CacheValue))
    (pat : String) :
    cache_keys ⟨e, hc, f1, f2, f3, true, f5⟩ store pat = [] := by
  cases e <;> cases hc <;> rfl

theorem is_available_failure (e hc f1 f2 f3 f4 : Bool) :
    is_available ⟨e, hc, f1, f2, f3, f4, true⟩ = false := by
  cases e <;> cases hc <;> rfl

/-- C7: no cache failure is ever surfaced. Each cache-layer operation whose
underlying client call raises (modelled by the corresponding `fail_*` switch)
returns its benign value — `(store, false)` for `cache_set`/`cache_delete`,
`none` for `cache_get`, `[]` for `cache_keys`, `false` for `is_available` —
with the key space untouched; and every orchestrator operation yields the same
entity result and the same goals/tasks/counters (`AgentState.core`) under an
arbitrary cache layer and Redis contents, i.e. whether the cache is available,
failing in any combination, or entirely absent (`has_client = false`). Only the
cache-status decorations of `get_task`/`get_goal` results may differ, hence
those two conjuncts compare the entity payloads. -/
theorem c7_cache_isolation :
    (∀ (e hc f2 f3 f4 f5 : Bool) (store : List (String × CacheValue)) (key : String)
        (v : CacheValue) (ttl : Nat),
        cache_set ⟨e, hc, true, f2, f3, f4, f5⟩ store key v ttl = (store, false)) ∧
    (∀ (e hc f1 f3 f4 f5 : Bool) (store : List (String × CacheValue)) (key : String),
        cache_get ⟨e, hc, f1, true, f3, f4, f5⟩ store key = none) ∧
    (∀ (e hc f1 f2 f4 f5 : Bool) (store : List (String × CacheValue)) (keys : List String),
        cache_delete ⟨e, hc, f1, f2, true, f4, f5⟩ store keys = (store, false)) ∧
    (∀ (e hc f1 f2 f3 f5 : Bool) (store : List (String × CacheValue)) (pat : String),
        cache_keys ⟨e, hc, f1, f2, f3, true, f5⟩ store pat = []) ∧
    (∀ (e hc f1 f2 f3 f4 : Bool), is_available ⟨e, hc, f1, f2, f3, f4, true⟩ = false) ∧
    (∀ (s : AgentState) (cl : CacheLayer) (rs : List (String × CacheValue))
        (d p : String) (r : List String) (md : List (String × String)) (now : String),
        (create_goal { s with cache := cl, redis := rs } d p r md now).2
          = (create_goal s d p r md now).2 ∧
        (create_goal { s with cache := cl, redis := rs } d p r md now).1.core
          = (create_goal s d p r md now).1.core) ∧
    (∀ (s : AgentState) (cl : CacheLayer) (rs : List (String × CacheValue))
        (goal_id : String) (subs : List SubtaskDef) (now : String),
        (break_down_goal { s with cache := cl, redis := rs } goal_id subs now).2
          = (break_down_goal s goal_id subs now).2 ∧
        (break_down_goal { s with cache := cl, redis := rs } goal_id subs now).1.core
          = (break_down_goal s goal_id subs now).1.core) ∧
    (∀ (s : AgentState) (cl : CacheLayer) (rs : List (String × CacheValue))
        (task_id st : String) (res : Option String) (now : String),
        (update_task_status { s with cache := cl, redis := rs } task_id st res now).2
          = (update_task_status s task_id st res now).2 ∧
        (update_task_status { s with cache := cl, redis := rs } task_id st res now).1.core
          = (update_task_status s task_id st res now).1.core) ∧
    (∀ (s : AgentState) (cl : CacheLayer) (rs : List (String × CacheValue))
        (goal_id : String) (de pr st : Option String) (re : Option (List String))
        (md : Option (List (String × String))) (now : String),
        (update_goal { s with cache := cl, redis := rs } goal_id de pr st re md now).2
          = (update_goal s goal_id de pr st re md now).2 ∧
        (update_goal { s with cache := cl, redis := rs } goal_id de pr st re md now).1.core
          = (update_goal s goal_id de pr st re md now).1.core) ∧
    (∀ (s : AgentState) (cl : CacheLayer) (rs : List (String × CacheValue))
        (task_id now : String),
        (delete_task { s with cache := cl, redis := rs } task_id now).2
          = (delete_task s task_id now).2 ∧
        (delete_task { s with cache := cl, redis := rs } task_id now).1.core
          = (delete_task s task_id now).1.core) ∧
    (∀ (s : AgentState) (cl : CacheLayer) (rs : List (String × CacheValue))
        (goal_id now : String),
        (delete_goal { s with cache := cl, redis := rs } goal_id now).2
          = (delete_goal s goal_id now).2 ∧
        (delete_goal { s with cache := cl, redis := rs } goal_id now).1.core
          = (delete_goal s goal_id now).1.core) ∧
    (∀ (s : AgentState) (cl : CacheLayer) (rs : List (String × CacheValue))
        (goal_id : Option String),
        get_next_tasks { s with cache := cl, redis := rs } goal_id
          = get_next_tasks s goal_id) ∧
    (∀ (s : AgentState) (cl : CacheLayer) (rs : List (String × CacheValue))
        (goal_id : String),
        generate_execution_plan { s with cache := cl, redis := rs } goal_id
          = generate_execution_plan s goal_id) ∧
    (∀ (s : AgentState) (cl : CacheLayer) (rs : List (String × CacheValue))
        (st pr : Option String),
        list_goals { s with cache := cl, redis := rs } st pr = list_goals s st pr) ∧
    (∀ (s : AgentState) (cl : CacheLayer) (rs : List (String × CacheValue))
        (task_id : String),
        (get_task { s with cache := cl, redis := rs } task_id).toOption.map (fun x => x.1)
          = (get_task s task_id).toOption.map (fun x => x.1)) ∧
    (∀ (s : AgentState) (cl : CacheLayer) (rs : List (String × CacheValue))
        (goal_id : String),
        (get_goal { s with cache := cl, redis := rs } goal_id).toOption.map
            (fun gd => (gd.goal, gd.task_details))
          = (get_goal s goal_id).toOption.map (fun gd => (gd.goal, gd.task_details))) := by
  refine ⟨cache_set_failure, cache_get_failure, cache_delete_failure, cache_keys_failure,
    is_available_failure, ?_, ?_, ?_, ?_, ?_, ?_, ?_, ?_, ?_, ?_, ?_⟩
  · intro s cl rs d p r md now
    exact ⟨(create_goal_core_congr { s with cache := cl, redis := rs } s d p r md now rfl).2,
      (create_goal_core_congr { s with cache := cl, redis := rs } s d p r md now rfl).1⟩
  · intro s cl rs goal_id subs now
    exact ⟨(break_down_goal_core_congr { s with cache := cl, redis := rs } s goal_id subs now rfl).2,
      (break_down_goal_core_congr { s with cache := cl, redis := rs } s goal_id subs now rfl).1⟩
  · intro s cl rs task_id st res now
    exact ⟨(update_task_status_core_congr { s with cache := cl, redis := rs } s task_id st res now rfl).2,
      (update_task_status_core_congr { s with cache := cl, redis := rs } s task_id st res now rfl).1⟩
  · intro s cl rs goal_id de pr st re md now
    exact ⟨(update_goal_core_congr { s with cache := cl, redis := rs } s goal_id de pr st re md now rfl).2,
      (update_goal_core_congr { s with cache := cl, redis := rs } s goal_id de pr st re md now rfl).1⟩
  · intro s cl rs task_id now
    exact ⟨(delete_task_core_congr { s with cache := cl, redis := rs } s task_id now rfl).2,
      (delete_task_core_congr { s with cache := cl, redis := rs } s task_id now rfl).1⟩
  · intro s cl rs goal_id now
    exact ⟨(delete_goal_core_congr { s with cache := cl, redis := rs } s goal_id now rfl).2,
      (delete_goal_core_congr { s with cache := cl, redis := rs } s goal_id now rfl).1⟩
  · intro s cl rs goal_id
    exact get_next_tasks_congr rfl goal_id
  · intro s cl rs goal_id
    exact generate_execution_plan_congr rfl goal_id
  · intro s cl rs st pr
    exact list_goals_congr rfl st pr
  · intro s cl rs task_id
    exact get_task_entity_congr
      (show ({ s with cache := cl, redis := rs } : AgentState).core = s.core from rfl) task_id
  · intro s cl rs goal_id
    exact get_goal_entity_congr
      (show ({ s with cache := cl, redis := rs } : AgentState).core = s.core from rfl) goal_id

/-! ### C8 — per-item independence of the batch operations -/

theorem update_task_status_state_or_ok (s : AgentState) (task_id st : String)
    (res : Option String) (now : String) :
    (update_task_status s task_id st res now).1 = s ∨
    ∃ t, (update_task_status s task_id st res now).2 = .ok t := by
  unfold update_task_status
  cases hm : alist_get s.tasks task_id with
  | none => exact .inl rfl
  | some task0 =>
    dsimp only
    by_cases hv : (!((st = "pending") || (st = "in_progress") || (st = "completed")
        || (st = "failed") || (st = "blocked"))) = true
    · rw [if_pos hv]
      exact .inl rfl
    · rw [if_neg hv]
      simp only [persist_to_cache_goals, persist_to_cache_tasks]
      cases hg : alist_get s.goals (apply_status_update task0 st res now).goal_id with
      | none => exact .inr ⟨_, rfl⟩
      | some g => exact .inr ⟨_, rfl⟩

theorem process_valid_updates_append (now : String) :
    ∀ (l1 l2 : List TaskUpdate) (s : AgentState),
      process_valid_updates now s (l1 ++ l2)
        = ((process_valid_updates now (process_valid_updates now s l1).1 l2).1,
           (process_valid_updates now s l1).2.1
             ++ (process_valid_updates now (process_valid_updates now s l1).1 l2).2.1,
           (process_valid_updates now s l1).2.2
             ++ (process_valid_updates now (process_valid_updates now s l1).1 l2).2.2) := by
  intro l1
  induction l1 with
  | nil => intro l2 s; simp [process_valid_updates]
  | cons u rest ih =>
    intro l2 s
    rw [List.cons_append, process_valid_updates, process_valid_updates]
    cases hr : (update_task_status s (u.task_id.getD "") (u.status.getD "") u.result now).2 with
    | ok t =>
      dsimp only
      rw [ih]
      simp
    | error e =>
      dsimp only
      rw [ih]
      simp

theorem process_valid_updates_length (now : String) :
    ∀ (l : List TaskUpdate) (s : AgentState),
      (process_valid_updates now s l).2.1.length + (process_valid_updates now s l).2.2.length
        = l.length := by
  intro l
  induction l with
  | nil => intro s; rfl
  | cons u rest ih =>
    intro s
    rw [process_valid_updates]
    cases hr : (update_task_status s (u.task_id.getD "") (u.status.getD "") u.result now).2 with
    | ok t =>
      have h := ih (update_task_status s (u.task_id.getD "") (u.status.getD "") u.result now).1
      dsimp only
      simp only [List.length_cons]
      omega
    | error e =>
      have h := ih (update_task_status s (u.task_id.getD "") (u.status.getD "") u.result now).1
      dsimp only
      simp only [List.length_cons]
      omega

theorem length_filter_not_add {α : Type} (p : α → Bool) (l : List α) :
    (l.filter p).length + (l.filter (fun a => !(p a))).length = l.length := by
  induction l with
  | nil => rfl
  | cons a rest ih =>
    cases h : p a <;> simp [List.filter_cons, h] <;> omega

theorem batch_get_go_spec (s : AgentState) :
    ∀ (ids : List String),
      batch_get_go s ids
        = (ids.filterMap (fun tid => (get_task s tid).toOption),
           ids.filter (fun tid => (alist_get s.tasks tid).isNone)) := by
  intro ids
  induction ids with
  | nil => rfl
  | cons tid rest ih =>
    rw [batch_get_go]
    rw [ih]
    cases hm : alist_get s.tasks tid with
    | none => simp [get_task, hm, Except.toOption, List.filterMap_cons, List.filter_cons]
    | some t => simp [get_task, hm, Except.toOption, List.filterMap_cons, List.filter_cons]

theorem batch_get_go_length (s : AgentState) :
    ∀ (ids : List String),
      (batch_get_go s ids).1.length + (batch_get_go s ids).2.length = ids.length := by
  intro ids
  induction ids with
  | nil => rfl
  | cons tid rest ih =>
    rw [batch_get_go]
    cases hr : get_task s tid with
    | ok d =>
      dsimp only
      simp only [List.length_cons]
      omega
    | error e =>
      dsimp only
      simp only [List.length_cons]
      omega

/-- C8: items of `batch_update_tasks` and `batch_get_tasks` succeed or fail
independently. (1) Both batch calls return normally — structurally, their
result records carry a per-item `successful`/`failed` (resp.
`tasks`/`not_found`) split whose sizes always add up to the submitted total.
(2) An item missing `task_id` or `status` is recorded in `failed` with the
message `Missing task_id or status`: removing it from the batch leaves the
final state, the `successful` bucket, and every other `failed` entry
unchanged. (3) An item whose `update_task_status` call raises (here: `e`, at
the point in the processing sequence where the item is reached) is recorded in
`failed` as `(task_id, str(e))`: removing it leaves the final state, the
`successful` bucket and the other `failed` entries unchanged, so no other item
is undone and the batch is not aborted. (4) `batch_get_tasks` resolves every
id independently against the task map: lookups that raise land in `not_found`
(exactly the ids absent from the task map), the rest in `tasks`, in
submission order. -/
theorem c8_batch_independence :
    (∀ (s : AgentState) (updates : List TaskUpdate) (now : String),
        (batch_update_tasks s updates now).2.total = updates.length ∧
        (batch_update_tasks s updates now).2.successful.length
          + (batch_update_tasks s updates now).2.failed.length = updates.length) ∧
    (∀ (s : AgentState) (l1 l2 : List TaskUpdate) (u : TaskUpdate) (now : String),
        update_item_valid u = false →
        (batch_update_tasks s (l1 ++ u :: l2) now).1
            = (batch_update_tasks s (l1 ++ l2) now).1 ∧
        (batch_update_tasks s (l1 ++ u :: l2) now).2.successful
            = (batch_update_tasks s (l1 ++ l2) now).2.successful ∧
        ∃ f1 f2,
          (batch_update_tasks s (l1 ++ u :: l2) now).2.failed
              = f1 ++ (u.task_id, "Missing task_id or status") :: f2 ∧
          (batch_update_tasks s (l1 ++ l2) now).2.failed = f1 ++ f2) ∧
    (∀ (s : AgentState) (l1 l2 : List TaskUpdate) (u : TaskUpdate) (now : String) (e : PyError),
        (∀ v ∈ l1 ++ u :: l2, update_item_valid v = true) →
        (update_task_status (process_valid_updates now s l1).1 (u.task_id.getD "")
            (u.status.getD "") u.result now).2 = .error e →
        (batch_update_tasks s (l1 ++ u :: l2) now).1
            = (batch_update_tasks s (l1 ++ l2) now).1 ∧
        (batch_update_tasks s (l1 ++ u :: l2) now).2.successful
            = (batch_update_tasks s (l1 ++ l2) now).2.successful ∧
        ∃ f1 f2,
          (batch_update_tasks s (l1 ++ u :: l2) now).2.failed
              = f1 ++ (some (u.task_id.getD ""), error_message e) :: f2 ∧
          (batch_update_tasks s (l1 ++ l2) now).2.failed = f1 ++ f2) ∧
    (∀ (s : AgentState) (ids : List String),
        (batch_get_tasks s ids).tasks = ids.filterMap (fun tid => (get_task s tid).toOption) ∧
        (batch_get_tasks s ids).not_found
            = ids.filter (fun tid => (alist_get s.tasks tid).isNone) ∧
        (batch_get_tasks s ids).total = ids.length ∧
        (batch_get_tasks s ids).tasks.length + (batch_get_tasks s ids).not_found.length
            = ids.length ∧
        (∀ tid, tid ∈ (batch_get_tasks s ids).not_found
            ↔ tid ∈ ids ∧ alist_get s.tasks tid = none)) := by
  refine ⟨?_, ?_, ?_, ?_⟩
  · intro s updates now
    unfold batch_update_tasks
    refine ⟨rfl, ?_⟩
    dsimp only
    simp only [List.length_append, List.length_map]
    have h1 := process_valid_updates_length now (updates.filter update_item_valid) s
    have h2 := length_filter_not_add update_item_valid updates
    omega
  · intro s l1 l2 u now hu
    have hval : (l1 ++ u :: l2).filter update_item_valid
        = (l1 ++ l2).filter update_item_valid := by
      simp [List.filter_append, List.filter_cons, hu]
    have hinv : (l1 ++ u :: l2).filter (fun v => !(update_item_valid v))
        = l1.filter (fun v => !(update_item_valid v))
          ++ u :: l2.filter (fun v => !(update_item_valid v)) := by
      simp [List.filter_append, List.filter_cons, hu]
    unfold batch_update_tasks
    dsimp only
    rw [hval, hinv]
    refine ⟨rfl, rfl,
      (l1.filter (fun v => !(update_item_valid v))).map
        (fun v => (v.task_id, "Missing task_id or status")),
      (l2.filter (fun v => !(update_item_valid v))).map
        (fun v => (v.task_id, "Missing task_id or status"))
        ++ (process_valid_updates now s ((l1 ++ l2).filter update_item_valid)).2.2,
      ?_, ?_⟩
    · simp [List.map_append, List.map_cons, List.append_assoc]
    · simp [List.filter_append, List.map_append, List.append_assoc]
  · intro s l1 l2 u now e hval herr
    have hval_big : (l1 ++ u :: l2).filter update_item_valid = l1 ++ u :: l2 :=
      List.filter_eq_self.mpr hval
    have hval_small : (l1 ++ l2).filter update_item_valid = l1 ++ l2 := by
      refine List.filter_eq_self.mpr (fun v hv => hval v ?_)
      rcases List.mem_append.mp hv with h | h
      · exact List.mem_append.mpr (.inl h)
      · exact List.mem_append.mpr (.inr (List.mem_cons_of_mem u h))
    have hinv_big : (l1 ++ u :: l2).filter (fun v => !(update_item_valid v)) = [] := by
      refine List.filter_eq_nil_iff.mpr (fun v hv => ?_)
      simp [hval v hv]
    have hinv_small : (l1 ++ l2).filter (fun v => !(update_item_valid v)) = [] := by
      refine List.filter_eq_nil_iff.mpr (fun v hv => ?_)
      have : v ∈ l1 ++ u :: l2 := by
        rcases List.mem_append.mp hv with h | h
        · exact List.mem_append.mpr (.inl h)
        · exact List.mem_append.mpr (.inr (List.mem_cons_of_mem u h))
      simp [hval v this]
    have hst : (update_task_status (process_valid_updates now s l1).1 (u.task_id.getD "")
        (u.status.getD "") u.result now).1 = (process_valid_updates now s l1).1 := by
      rcases update_task_status_state_or_ok (process_valid_updates now s l1).1
          (u.task_id.getD "") (u.status.getD "") u.result now with h | ⟨t, ht⟩
      · exact h
      · rw [herr] at ht
        cases ht
    unfold batch_update_tasks
    dsimp only
    rw [hval_big, hval_small, hinv_big, hinv_small]
    simp only [List.map_nil, List.nil_append]
    rw [process_valid_updates_append now l1 (u :: l2) s,
      process_valid_updates_append now l1 l2 s]
    rw [process_valid_updates, herr]
    dsimp only
    rw [hst]
    exact ⟨rfl, rfl, (process_valid_updates now s l1).2.2,
      (process_valid_updates now (process_valid_updates now s l1).1 l2).2.2, rfl, rfl⟩
  · intro s ids
    have hlen := batch_get_go_length s ids
    rw [batch_get_go_spec s ids] at hlen
    unfold batch_get_tasks
    rw [batch_get_go_spec s ids]
    refine ⟨rfl, rfl, rfl, hlen, fun tid => ?_⟩
    simp [List.mem_filter, Option.isNone_iff_eq_none]

/-- An update item with no `task_id` (pre-submission validation failure). -/
def u_invalid : TaskUpdate := { task_id := none, status := some "completed", result := none }

/-- A well-formed update item naming a task that does not exist, so its
`update_task_status` call raises `ValueError`. -/
def u_missing : TaskUpdate :=
  { task_id := some "TASK-9999", status := some "completed", result := none }

/-- A well-formed update item for the existing task `TASK-0001`. -/
def u_good : TaskUpdate :=
  { task_id := some "TASK-0001", status := some "completed", result := none }

/-- A one-goal/one-task state for exercising the batch operations. -/
def state_b8 : AgentState :=
  { goals := [("GOAL-0001", mk_goal "GOAL-0001" ["TASK-0001"] "in_progress")]
    tasks := [("TASK-0001", mk_task "TASK-0001" "GOAL-0001" [] "pending" "medium")]
    goal_counter := 1
    task_counter := 1
    cache := cache_off
    redis := [] }

/-- C8 witness: in the batch `[u_good, u_invalid]` the invalid item is recorded
as failed while `u_good` still succeeds exactly as in the batch without it, and
in `[u_good, u_missing]` the not-found item's `ValueError` is recorded as its
failure while the rest of the batch is untouched. -/
theorem c8_batch_independence_witness :
    (update_item_valid u_invalid = false ∧
      ((batch_update_tasks state_b8 ([u_good] ++ u_invalid :: []) "t1").1
          = (batch_update_tasks state_b8 ([u_good] ++ []) "t1").1 ∧
        (batch_update_tasks state_b8 ([u_good] ++ u_invalid :: []) "t1").2.successful
          = (batch_update_tasks state_b8 ([u_good] ++ []) "t1").2.successful ∧
        ∃ f1 f2,
          (batch_update_tasks state_b8 ([u_good] ++ u_invalid :: []) "t1").2.failed
              = f1 ++ (u_invalid.task_id, "Missing task_id or status") :: f2 ∧
          (batch_update_tasks state_b8 ([u_good] ++ []) "t1").2.failed = f1 ++ f2)) ∧
    ((∀ v ∈ [u_good] ++ u_missing :: [], update_item_valid v = true) ∧
      (update_task_status (process_valid_updates "t1" state_b8 [u_good]).1
          (u_missing.task_id.getD "") (u_missing.status.getD "") u_missing.result "t1").2
        = .error (.valueError "Task TASK-9999 not found") ∧
      ((batch_update_tasks state_b8 ([u_good] ++ u_missing :: []) "t1").1
          = (batch_update_tasks state_b8 ([u_good] ++ []) "t1").1 ∧
        (batch_update_tasks state_b8 ([u_good] ++ u_missing :: []) "t1").2.successful
          = (batch_update_tasks state_b8 ([u_good] ++ []) "t1").2.successful ∧
        ∃ f1 f2,
          (batch_update_tasks state_b8 ([u_good] ++ u_missing :: []) "t1").2.failed
              = f1 ++ (some (u_missing.task_id.getD ""),
                  error_message (.valueError "Task TASK-9999 not found")) :: f2 ∧
          (batch_update_tasks state_b8 ([u_good] ++ []) "t1").2.failed = f1 ++ f2)) :=
  ⟨⟨by decide,
    c8_batch_independence.2.1 state_b8 [u_good] [] u_invalid "t1" (by decide)⟩,
   ⟨by decide, by decide,
    c8_batch_independence.2.2.1 state_b8 [u_good] [] u_missing "t1"
      (.valueError "Task TASK-9999 not found") (by decide) (by decide)⟩⟩

end GoalAgent
